import Mathlib

/-!
# Button/LED matrix scanner (`src/macro.c`)

A shallow embedding of the sketch `macro.c`: the configuration constants, the
pin tables, the two static arrays, `setup` and `scan`.

Modelling decisions, all read off the source:

* `LED_buffer` and `debounce_count` are declared `[NUM_*_COLS][NUM_*_ROWS]`,
  that is `[4][2]`, but `scan` subscripts them `[currentRow][j]` with
  `j < 4`.  A C array of arrays is one contiguous row-major block, so the
  element `a[i][j]` of `T a[4][2]` lives at offset `i * 2 + j`.  The arrays
  are therefore embedded as flat memories addressed through `ledIdx` and
  `dbIdx`; offsets `0 .. 7` are the declared object.
* The pin tables have three initialisers each while their declared sizes
  are 2 (rows) and 4 (columns).  The tables keep the first `size`
  initialisers and are zero-filled up to `size`.
* `digitalRead` is an external input: one scan call receives a reading for
  every pin.  `digitalWrite` records the level last written to a pin.
* `Serial.print("Key pressed "); Serial.println(n)` appends `pressed n` to
  the serial log, and likewise for `released n`.
-/

set_option maxRecDepth 100000

namespace MacroKeyboard

/-! ## Configuration (lines 9-16) -/

/-- Number of LED columns: `#define NUM_LED_COLS (4)`. -/
def NUM_LED_COLS : Nat := 4
/-- Number of LED rows: `#define NUM_LED_ROWS (2)`. -/
def NUM_LED_ROWS : Nat := 2
/-- Number of switch columns: `#define NUM_BTN_COLS (4)`. -/
def NUM_BTN_COLS : Nat := 4
/-- Number of switch rows: `#define NUM_BTN_ROWS (2)`. -/
def NUM_BTN_ROWS : Nat := 2
/-- Debounce threshold: `#define MAX_DEBOUNCE (3)`. -/
def MAX_DEBOUNCE : Int := 3

/-- Logic level of a digital pin. -/
inductive Level where
  | LOW
  | HIGH
  deriving DecidableEq, Repr

/-- Pin direction as set by `pinMode`. -/
inductive PinMode where
  | INPUT
  | OUTPUT
  | INPUT_PULLUP
  deriving DecidableEq, Repr

/-- One line of the serial log: `Key pressed n` or `Key released n`. -/
inductive Event where
  | pressed (key : Nat)
  | released (key : Nat)
  deriving DecidableEq, Repr

/-! ## Hardware tables (lines 21-24) -/

/-- Table `btnRowPins[NUM_BTN_ROWS] = {8, 9, 10}`: two slots, third initialiser in excess. -/
def btnRowPins : List Nat := [8, 9]
/-- Table `btnColPins[NUM_BTN_COLS] = {11, 12, 13}`: four slots, the last zero-filled. -/
def btnColPins : List Nat := [11, 12, 13, 0]
/-- Table `ledRowPins[NUM_LED_ROWS] = {2, 3, 4}`: two slots, third initialiser in excess. -/
def ledRowPins : List Nat := [2, 3]
/-- Table `ledColPins[NUM_LED_COLS] = {5, 6, 7}`: four slots, the last zero-filled. -/
def ledColPins : List Nat := [5, 6, 7, 0]

/-- Table lookup `tbl[i]`. -/
def pinAt (tbl : List Nat) (i : Nat) : Nat := tbl.getD i 0

/-! ## Global state (lines 29-30, 66) and the pins -/

/-- Offset of `LED_buffer[i][j]` inside `bool LED_buffer[NUM_LED_COLS][NUM_LED_ROWS]`. -/
def ledIdx (i j : Nat) : Nat := i * NUM_LED_ROWS + j

/-- Offset of `debounce_count[i][j]` inside
`int8_t debounce_count[NUM_BTN_COLS][NUM_BTN_ROWS]`. -/
def dbIdx (i j : Nat) : Nat := i * NUM_BTN_ROWS + j

/-- Program state: the two static arrays (flat, row-major), the static
`currentRow` of `scan`, the pins and the serial log. -/
structure State where
  LED_buffer : Nat → Bool
  debounce_count : Nat → Int
  currentRow : Nat
  pinLevel : Nat → Level
  pinModes : Nat → PinMode
  serial : List Event

/-- Arduino `digitalWrite(pin, v)`. -/
def digitalWrite (pin : Nat) (v : Level) (s : State) : State :=
  { s with pinLevel := fun p => if p = pin then v else s.pinLevel p }

/-- Arduino `pinMode(pin, m)`. -/
def pinMode (pin : Nat) (m : PinMode) (s : State) : State :=
  { s with pinModes := fun p => if p = pin then m else s.pinModes p }

/-- The loop `for (i = 0; i < n; i++) body(i)`. -/
def forUpTo (n : Nat) (body : Nat → State → State) (s : State) : State :=
  match n with
  | 0 => s
  | k + 1 => body k (forUpTo k body s)

/-! ## `setup` (lines 32-55, 139-176) -/

/-- Function `setupLEDPins` (lines 139-156). -/
def setupLEDPins (s : State) : State :=
  let s := forUpTo NUM_LED_ROWS
    (fun i s => digitalWrite (pinAt ledRowPins i) Level.HIGH
      (pinMode (pinAt ledRowPins i) PinMode.OUTPUT s)) s
  forUpTo NUM_LED_COLS
    (fun i s => digitalWrite (pinAt ledColPins i) Level.LOW
      (pinMode (pinAt ledColPins i) PinMode.OUTPUT s)) s

/-- Function `setupSwitchPins` (lines 158-176). -/
def setupSwitchPins (s : State) : State :=
  let s := forUpTo NUM_BTN_ROWS
    (fun i s => digitalWrite (pinAt btnRowPins i) Level.HIGH
      (pinMode (pinAt btnRowPins i) PinMode.OUTPUT s)) s
  forUpTo NUM_BTN_COLS
    (fun i s => pinMode (pinAt btnColPins i) PinMode.INPUT_PULLUP s) s

/-- Function `setup` (lines 32-55); `Serial.begin` only opens the log. -/
def setup (s : State) : State :=
  let s := setupLEDPins s
  let s := setupSwitchPins s
  let s := forUpTo NUM_BTN_COLS (fun i s =>
    forUpTo NUM_BTN_ROWS (fun j s =>
      { s with debounce_count := fun n => if n = dbIdx i j then 0 else s.debounce_count n }) s) s
  forUpTo NUM_LED_COLS (fun i s =>
    forUpTo NUM_LED_ROWS (fun j s =>
      { s with LED_buffer := fun n => if n = ledIdx i j then false else s.LED_buffer n }) s) s

/-- State at program start, before `setup` runs: statics are zero-initialised
(`currentRow = 0` by its initialiser, line 66), nothing has been printed,
and the pins are in whatever condition `hw` the board is in. -/
def boot (hw : State) : State :=
  { hw with
    LED_buffer := fun _ => false
    debounce_count := fun _ => 0
    currentRow := 0
    serial := [] }

/-! ## `scan` (lines 62-137) -/

/-- Body of the LED loop (lines 80-83). -/
def scan_ledBody (i : Nat) (s : State) : State :=
  if s.LED_buffer (ledIdx s.currentRow i) = true then
    digitalWrite (pinAt ledColPins i) Level.HIGH s
  else s

/-- Debounce update of switch `(currentRow, j)` (lines 90-117), with the
outcome of the test `digitalRead(btnColPins[j]) == LOW` passed in as
`rawPressed`. -/
def scan_debounce (rawPressed : Bool) (j : Nat) (s : State) : State :=
  if rawPressed = true then
    if s.debounce_count (dbIdx s.currentRow j) < MAX_DEBOUNCE then
      let s1 : State :=
        { s with
          debounce_count := fun n =>
            if n = dbIdx s.currentRow j then s.debounce_count (dbIdx s.currentRow j) + 1
            else s.debounce_count n }
      if s1.debounce_count (dbIdx s1.currentRow j) = MAX_DEBOUNCE then
        { s1 with
          serial := s1.serial ++ [Event.pressed (s1.currentRow * NUM_BTN_COLS + j)]
          LED_buffer := fun n => if n = ledIdx s1.currentRow j then true else s1.LED_buffer n }
      else s1
    else s
  else
    if s.debounce_count (dbIdx s.currentRow j) > 0 then
      let s1 : State :=
        { s with
          debounce_count := fun n =>
            if n = dbIdx s.currentRow j then s.debounce_count (dbIdx s.currentRow j) - 1
            else s.debounce_count n }
      if s1.debounce_count (dbIdx s1.currentRow j) = 0 then
        { s1 with
          serial := s1.serial ++ [Event.released (s1.currentRow * NUM_BTN_COLS + j)]
          LED_buffer := fun n => if n = ledIdx s1.currentRow j then false else s1.LED_buffer n }
      else s1
    else s

/-- Body of the switch loop (lines 89-117): read column `j`, then debounce. -/
def scan_btnBody (rd : Nat → Level) (j : Nat) (s : State) : State :=
  scan_debounce (decide (rd (pinAt btnColPins j) = Level.LOW)) j s

/-- One call of `scan` (lines 62-137); `rd` is what `digitalRead` returns for
each pin during this call. -/
def scan (rd : Nat → Level) (s : State) : State :=
  let s := digitalWrite (pinAt btnRowPins s.currentRow) Level.LOW s
  let s := digitalWrite (pinAt ledRowPins s.currentRow) Level.LOW s
  let s := forUpTo NUM_LED_COLS scan_ledBody s
  let s := forUpTo NUM_BTN_COLS (scan_btnBody rd) s
  let s := digitalWrite (pinAt btnRowPins s.currentRow) Level.HIGH s
  let s := digitalWrite (pinAt ledRowPins s.currentRow) Level.HIGH s
  let s := forUpTo NUM_LED_ROWS (fun i s => digitalWrite (pinAt ledColPins i) Level.LOW s) s
  let r := (s.currentRow + 1) % 256
  { s with currentRow := if r ≥ NUM_LED_ROWS then 0 else r }

/-- Function `loop` called once per element of `rds`: successive `scan` calls. -/
def runScans (rds : List (Nat → Level)) (s : State) : State :=
  rds.foldl (fun s rd => scan rd s) s

/-- Raw samples fed one after the other to the debounce update of switch
`(currentRow, j)`. -/
def feed (j : Nat) (samples : List Bool) (s : State) : State :=
  samples.foldl (fun s b => scan_debounce b j s) s

/-- Serial lines printed by one `scan` call. -/
def emitted (rd : Nat → Level) (s : State) : List Event :=
  (scan rd s).serial.drop s.serial.length

/-- The events of a log that carry key index `k`. -/
def keyEvents (k : Nat) (evs : List Event) : List Event :=
  evs.filter (fun e => decide (e = Event.pressed k) || decide (e = Event.released k))

/-- A board with every pin LOW and configured as input. -/
def blankBoard : State :=
  { LED_buffer := fun _ => false
    debounce_count := fun _ => 0
    currentRow := 0
    pinLevel := fun _ => Level.LOW
    pinModes := fun _ => PinMode.INPUT
    serial := [] }

/-- Reading in which every pin is LOW (every switch of the row closed). -/
def allLow : Nat → Level := fun _ => Level.LOW

/-- Reading in which every pin is HIGH (every switch of the row open). -/
def allHigh : Nat → Level := fun _ => Level.HIGH

/-- Reading in which only pin `p` is LOW. -/
def onlyLow (p : Nat) : Nat → Level := fun q => if q = p then Level.LOW else Level.HIGH


/-- Every cell of `debounce_count` holds a value in `[0, MAX_DEBOUNCE]`. -/
def countersInRange (s : State) : Prop :=
  ∀ n, n < NUM_BTN_COLS * NUM_BTN_ROWS →
    0 ≤ s.debounce_count n ∧ s.debounce_count n ≤ MAX_DEBOUNCE

instance (s : State) : Decidable (countersInRange s) := by
  unfold countersInRange
  infer_instance

/-- The first `n` samples of the alternating sequence `true, false, true, ...`. -/
def alternating (n : Nat) : List Bool :=
  (List.range n).map (fun i => decide (i % 2 = 0))

/-- The state after `setup` on a blank board. -/
def freshState : State := setup (boot blankBoard)

/-- Switch `(0, 0)` of the fresh state after two raw pressed samples. -/
def pressedTwice : State := feed 0 [true, true] freshState

/-- Switch `(0, 0)` of the fresh state after three raw pressed samples. -/
def pressedThrice : State := feed 0 [true, true, true] freshState

/-- Scan readings for a list of raw samples of switch `(0, 0)`: each sample is
a scan of row 0 in which pin 11 reads LOW exactly when the sample is pressed,
followed by a scan of row 1; every other switch reads released throughout. -/
def passes00 (samples : List Bool) : List (Nat → Level) :=
  samples.flatMap (fun b => [if b = true then onlyLow 11 else allHigh, allHigh])

/-! ## Summaries used in the proofs -/

/-- Counter written by one debounce update, as a function of the raw sample
and the counter read. -/
def stepCount (b : Bool) (k : Int) : Int :=
  if b = true then (if k < MAX_DEBOUNCE then k + 1 else k)
  else (if k > 0 then k - 1 else k)

/-- Serial lines printed by one debounce update, as a function of the raw
sample, the key index and the counter read. -/
def stepEvents (b : Bool) (key : Nat) (k : Int) : List Event :=
  if b = true then (if k = MAX_DEBOUNCE - 1 then [Event.pressed key] else [])
  else (if k = 1 then [Event.released key] else [])

/-- LED cell left by one debounce update, as a function of the raw sample, the
counter read and the cell read. -/
def stepLED (b : Bool) (k : Int) (old : Bool) : Bool :=
  if b = true then (if k = MAX_DEBOUNCE - 1 then true else old)
  else (if k = 1 then false else old)

/-- Row that `scan` leaves in `currentRow` (lines 132-136). -/
def nextRow (r : Nat) : Nat :=
  if (r + 1) % 256 ≥ NUM_LED_ROWS then 0 else (r + 1) % 256

/-- Raw sample of column `j` under the reading `rd`. -/
def rawPressed (rd : Nat → Level) (j : Nat) : Bool :=
  decide (rd (pinAt btnColPins j) = Level.LOW)

/-- Position of switch `(0, 0)`: the row about to be scanned, its counter and
its LED cell. -/
def switch00 (s : State) (row : Nat) (k : Int) (led : Bool) : Prop :=
  s.currentRow = row ∧ s.debounce_count (dbIdx 0 0) = k ∧ s.LED_buffer (ledIdx 0 0) = led

/-! ## Phases of `scan`, invariants and the subscript-checked variant -/

/-- Key index carried by a serial line. -/
def Event.key : Event → Nat
  | Event.pressed k => k
  | Event.released k => k

/-- The fresh state followed to the point where switch `(0, 1)` has counter 2:
two scans of row 0 with only column 1 (pin 12) LOW, a scan of row 1 between. -/
def col1PressedTwice : State := runScans [onlyLow 12, allHigh, onlyLow 12, allHigh] freshState

/-- Row selection at the start of `scan` (lines 72-73). -/
def scan_select (s : State) : State :=
  digitalWrite (pinAt ledRowPins s.currentRow) Level.LOW
    (digitalWrite (pinAt btnRowPins s.currentRow) Level.LOW s)

/-- State at the end of the output phase of `scan` (line 84): the row is
selected and the LED loop has run. -/
def scan_output (s : State) : State :=
  forUpTo NUM_LED_COLS scan_ledBody (scan_select s)

/-- State at the end of the input phase of `scan` (line 118): the switch loop
has run on the state left by the output phase. -/
def scan_input (rd : Nat → Level) (s : State) : State :=
  forUpTo NUM_BTN_COLS (scan_btnBody rd) (scan_output s)

/-- Every switch-row and LED-row drive line is HIGH. -/
def rowLinesHigh (s : State) : Prop :=
  (∀ r, r < NUM_BTN_ROWS → s.pinLevel (pinAt btnRowPins r) = Level.HIGH)
  ∧ (∀ r, r < NUM_LED_ROWS → s.pinLevel (pinAt ledRowPins r) = Level.HIGH)

instance (s : State) : Decidable (rowLinesHigh s) := by
  unfold rowLinesHigh
  infer_instance

/-- For every switch position, a counter at `MAX_DEBOUNCE` has its LED entry
true and a counter at 0 has its LED entry false. -/
def ledMirrorsCounters (s : State) : Prop :=
  ∀ r, r < NUM_BTN_ROWS → ∀ c, c < NUM_BTN_COLS →
    (s.debounce_count (dbIdx r c) = MAX_DEBOUNCE → s.LED_buffer (ledIdx r c) = true)
    ∧ (s.debounce_count (dbIdx r c) = 0 → s.LED_buffer (ledIdx r c) = false)

instance (s : State) : Decidable (ledMirrorsCounters s) := by
  unfold ledMirrorsCounters
  infer_instance

/-- Checked read of `LED_buffer[i][j]`: `none` when a subscript is outside the
declared `[NUM_LED_COLS][NUM_LED_ROWS]`. -/
def LED_buffer_at (s : State) (i j : Nat) : Option Bool :=
  if i < NUM_LED_COLS ∧ j < NUM_LED_ROWS then some (s.LED_buffer (ledIdx i j)) else none

/-- Checked read of `debounce_count[i][j]`: `none` when a subscript is outside
the declared `[NUM_BTN_COLS][NUM_BTN_ROWS]`. -/
def debounce_count_at (s : State) (i j : Nat) : Option Int :=
  if i < NUM_BTN_COLS ∧ j < NUM_BTN_ROWS then some (s.debounce_count (dbIdx i j)) else none

/-- The loop `for (i = 0; i < n; i++) body(i)` with a body that can fail. -/
def forUpToM (n : Nat) (body : Nat → State → Option State) (s : State) : Option State :=
  match n with
  | 0 => some s
  | k + 1 => (forUpToM k body s).bind (body k)

/-- Body of the LED loop (lines 80-83) with every subscript checked. -/
def scanChecked_ledBody (i : Nat) (s : State) : Option State :=
  (LED_buffer_at s s.currentRow i).bind fun lit =>
    if lit = true then
      (ledColPins.get? i).bind fun p => some (digitalWrite p Level.HIGH s)
    else some s

/-- Debounce update (lines 90-117) with every subscript checked. -/
def scanChecked_btnBody (rd : Nat → Level) (j : Nat) (s : State) : Option State :=
  (btnColPins.get? j).bind fun p =>
    if rd p = Level.LOW then
      (debounce_count_at s s.currentRow j).bind fun k =>
        if k < MAX_DEBOUNCE then
          let s1 : State :=
            { s with
              debounce_count := fun n =>
                if n = dbIdx s.currentRow j then k + 1 else s.debounce_count n }
          (debounce_count_at s1 s1.currentRow j).bind fun k1 =>
            if k1 = MAX_DEBOUNCE then
              (LED_buffer_at s1 s1.currentRow j).bind fun _ =>
                some { s1 with
                  serial := s1.serial ++ [Event.pressed (s1.currentRow * NUM_BTN_COLS + j)]
                  LED_buffer := fun n =>
                    if n = ledIdx s1.currentRow j then true else s1.LED_buffer n }
            else some s1
        else some s
    else
      (debounce_count_at s s.currentRow j).bind fun k =>
        if k > 0 then
          let s1 : State :=
            { s with
              debounce_count := fun n =>
                if n = dbIdx s.currentRow j then k - 1 else s.debounce_count n }
          (debounce_count_at s1 s1.currentRow j).bind fun k1 =>
            if k1 = 0 then
              (LED_buffer_at s1 s1.currentRow j).bind fun _ =>
                some { s1 with
                  serial := s1.serial ++ [Event.released (s1.currentRow * NUM_BTN_COLS + j)]
                  LED_buffer := fun n =>
                    if n = ledIdx s1.currentRow j then false else s1.LED_buffer n }
            else some s1
        else some s

/-- One call of `scan` (lines 62-137) with every array subscript checked
against the declared size of the dimension it indexes. -/
def scanChecked (rd : Nat → Level) (s : State) : Option State :=
  (btnRowPins.get? s.currentRow).bind fun p =>
  (ledRowPins.get? s.currentRow).bind fun q =>
  (forUpToM NUM_LED_COLS scanChecked_ledBody
      (digitalWrite q Level.LOW (digitalWrite p Level.LOW s))).bind fun s =>
  (forUpToM NUM_BTN_COLS (scanChecked_btnBody rd) s).bind fun s =>
  (btnRowPins.get? s.currentRow).bind fun p =>
  (ledRowPins.get? s.currentRow).bind fun q =>
  (forUpToM NUM_LED_ROWS
      (fun i s => (ledColPins.get? i).bind fun c => some (digitalWrite c Level.LOW s))
      (digitalWrite q Level.HIGH (digitalWrite p Level.HIGH s))).bind fun s =>
  some { s with
    currentRow :=
      if (s.currentRow + 1) % 256 ≥ NUM_LED_ROWS then 0 else (s.currentRow + 1) % 256 }

/-- The fresh state after five scans in which every column reads LOW. -/
def heldFive : State := runScans [allLow, allLow, allLow, allLow, allLow] freshState

/-- A pin that is no LED column line. -/
def notLedCol (p : Nat) : Prop := ∀ i, pinAt ledColPins i ≠ p

/-! ## Samples taken by the program of one switch -/

/-- Switch `(r, c)` has a counter cell and an LED cell of its own: no switch of
another row is subscripted onto them. -/
def ownCell (r c : Nat) : Prop :=
  ∀ r', r' < NUM_BTN_ROWS → r' ≠ r → ∀ c', c' < NUM_BTN_COLS →
    dbIdx r' c' ≠ dbIdx r c ∧ ledIdx r' c' ≠ ledIdx r c

instance (r c : Nat) : Decidable (ownCell r c) := by
  unfold ownCell
  infer_instance

/-- Raw samples of switch `(r, c)` taken by successive `scan` calls, the first of
them entered with `currentRow = row`: a call samples the switch when it scans
row `r`, and the sample is pressed when pin `btnColPins[c]` reads LOW. -/
def samplesOf (r c : Nat) : Nat → List (Nat → Level) → List Bool
  | _, [] => []
  | row, rd :: rest =>
    (if row = r then [rawPressed rd c] else []) ++ samplesOf r c (nextRow row) rest

/-- Serial lines printed by successive `scan` calls. -/
def emittedBy (rds : List (Nat → Level)) (s : State) : List Event :=
  (runScans rds s).serial.drop s.serial.length

/-- What the program holds about switch `(r, c)`: its counter, its LED entry
and the lines printed so far for its key. -/
def switchView (r c : Nat) (s : State) : Int × Bool × List Event :=
  (s.debounce_count (dbIdx r c), s.LED_buffer (ledIdx r c),
    keyEvents (r * NUM_BTN_COLS + c) s.serial)

/-- One debounce update seen on the view of the switch. -/
def switchStep (key : Nat) (v : Int × Bool × List Event) (b : Bool) :
    Int × Bool × List Event :=
  (stepCount b v.1, stepLED b v.1 v.2.1, v.2.2 ++ stepEvents b key v.1)

/-- Successive `scan` calls in which switch `(0, 2)` reads pressed on each of `n`
passes over row 0 and every other switch reads released. -/
def hold02 (n : Nat) : List (Nat → Level) :=
  (List.replicate n [onlyLow 13, allHigh]).flatten

/-- The fresh state after switches `(0, 2)` and `(1, 0)` have both been held for
two passes over each row: their shared counter is at `MAX_DEBOUNCE`. -/
def bothHeld : State :=
  runScans [onlyLow 13, onlyLow 11, onlyLow 13, onlyLow 11] freshState

/-! ## The debounce update, field by field -/

theorem scan_debounce_currentRow (b : Bool) (j : Nat) (s : State) :
    (scan_debounce b j s).currentRow = s.currentRow := by
  unfold scan_debounce
  dsimp only
  split_ifs <;> rfl

theorem scan_debounce_pinLevel (b : Bool) (j : Nat) (s : State) :
    (scan_debounce b j s).pinLevel = s.pinLevel := by
  unfold scan_debounce
  dsimp only
  split_ifs <;> rfl

theorem scan_debounce_pinModes (b : Bool) (j : Nat) (s : State) :
    (scan_debounce b j s).pinModes = s.pinModes := by
  unfold scan_debounce
  dsimp only
  split_ifs <;> rfl

/-- The counter of the switch being updated after a raw pressed sample. -/
theorem scan_debounce_true_count (j : Nat) (s : State) :
    (scan_debounce true j s).debounce_count (dbIdx s.currentRow j) =
      if s.debounce_count (dbIdx s.currentRow j) < MAX_DEBOUNCE
      then s.debounce_count (dbIdx s.currentRow j) + 1
      else s.debounce_count (dbIdx s.currentRow j) := by
  unfold scan_debounce
  dsimp only
  split_ifs <;> simp_all

/-- The counter of the switch being updated after a raw released sample. -/
theorem scan_debounce_false_count (j : Nat) (s : State) :
    (scan_debounce false j s).debounce_count (dbIdx s.currentRow j) =
      if s.debounce_count (dbIdx s.currentRow j) > 0
      then s.debounce_count (dbIdx s.currentRow j) - 1
      else s.debounce_count (dbIdx s.currentRow j) := by
  unfold scan_debounce
  dsimp only
  split_ifs <;> simp_all

/-- The update writes no counter cell but the one it addresses. -/
theorem scan_debounce_count_other (b : Bool) (j n : Nat) (s : State)
    (h : n ≠ dbIdx s.currentRow j) :
    (scan_debounce b j s).debounce_count n = s.debounce_count n := by
  unfold scan_debounce
  dsimp only
  split_ifs <;> simp_all

/-- The update writes no LED cell but the one it addresses. -/
theorem scan_debounce_LED_other (b : Bool) (j n : Nat) (s : State)
    (h : n ≠ ledIdx s.currentRow j) :
    (scan_debounce b j s).LED_buffer n = s.LED_buffer n := by
  unfold scan_debounce
  dsimp only
  split_ifs <;> simp_all

/-- Serial lines printed by a raw pressed sample. -/
theorem scan_debounce_true_serial (j : Nat) (s : State) :
    (scan_debounce true j s).serial =
      s.serial ++ (if s.debounce_count (dbIdx s.currentRow j) = MAX_DEBOUNCE - 1
        then [Event.pressed (s.currentRow * NUM_BTN_COLS + j)] else []) := by
  unfold scan_debounce MAX_DEBOUNCE
  dsimp only
  split_ifs <;> simp_all
  all_goals omega

/-- Serial lines printed by a raw released sample. -/
theorem scan_debounce_false_serial (j : Nat) (s : State) :
    (scan_debounce false j s).serial =
      s.serial ++ (if s.debounce_count (dbIdx s.currentRow j) = 1
        then [Event.released (s.currentRow * NUM_BTN_COLS + j)] else []) := by
  unfold scan_debounce
  dsimp only
  split_ifs <;> simp_all
  all_goals omega

/-- The LED cell of the switch after a raw pressed sample. -/
theorem scan_debounce_true_LED (j : Nat) (s : State) :
    (scan_debounce true j s).LED_buffer (ledIdx s.currentRow j) =
      if s.debounce_count (dbIdx s.currentRow j) = MAX_DEBOUNCE - 1 then true
      else s.LED_buffer (ledIdx s.currentRow j) := by
  unfold scan_debounce MAX_DEBOUNCE
  dsimp only
  split_ifs <;> simp_all
  all_goals omega

/-- The LED cell of the switch after a raw released sample. -/
theorem scan_debounce_false_LED (j : Nat) (s : State) :
    (scan_debounce false j s).LED_buffer (ledIdx s.currentRow j) =
      if s.debounce_count (dbIdx s.currentRow j) = 1 then false
      else s.LED_buffer (ledIdx s.currentRow j) := by
  unfold scan_debounce
  dsimp only
  split_ifs <;> simp_all
  all_goals omega


/-! ## Sample sequences fed to one switch -/

theorem feed_snoc (j : Nat) (l : List Bool) (b : Bool) (s : State) :
    feed j (l ++ [b]) s = scan_debounce b j (feed j l s) := by
  simp [feed, List.foldl_append]

theorem feed_currentRow (j : Nat) (l : List Bool) (s : State) :
    (feed j l s).currentRow = s.currentRow := by
  induction l using List.reverseRecOn with
  | nil => rfl
  | append_singleton l b ih => rw [feed_snoc, scan_debounce_currentRow, ih]

/-- A pressed sample at a saturated counter changes nothing at all. -/
theorem scan_debounce_true_saturated (j : Nat) (s : State)
    (h : s.debounce_count (dbIdx s.currentRow j) = MAX_DEBOUNCE) :
    scan_debounce true j s = s := by
  unfold scan_debounce
  simp [h]

/-- A released sample at counter zero changes nothing at all. -/
theorem scan_debounce_false_zero (j : Nat) (s : State)
    (h : s.debounce_count (dbIdx s.currentRow j) = 0) :
    scan_debounce false j s = s := by
  unfold scan_debounce
  simp [h]

/-! ## Loops, `setup` and `scan` -/

/-- A property kept by every iteration is kept by the whole loop. -/
theorem forUpTo_preserves (P : State → Prop) (body : Nat → State → State)
    (h : ∀ i s, P s → P (body i s)) (n : Nat) (s : State) (hs : P s) :
    P (forUpTo n body s) := by
  induction n with
  | zero => exact hs
  | succ k ih => exact h k _ ih

theorem setup_boot_debounce_count (hw : State) (n : Nat) :
    (setup (boot hw)).debounce_count n = 0 := by
  simp [setup, setupLEDPins, setupSwitchPins, boot, forUpTo, digitalWrite, pinMode,
    NUM_BTN_COLS, NUM_BTN_ROWS, NUM_LED_COLS, NUM_LED_ROWS]

theorem setup_boot_LED_buffer (hw : State) (n : Nat) :
    (setup (boot hw)).LED_buffer n = false := by
  simp [setup, setupLEDPins, setupSwitchPins, boot, forUpTo, digitalWrite, pinMode,
    NUM_BTN_COLS, NUM_BTN_ROWS, NUM_LED_COLS, NUM_LED_ROWS]

theorem setup_boot_currentRow (hw : State) : (setup (boot hw)).currentRow = 0 := rfl

theorem setup_boot_serial (hw : State) : (setup (boot hw)).serial = [] := rfl

/-- The debounce update keeps every counter cell inside `[0, MAX_DEBOUNCE]`. -/
theorem scan_debounce_countersInRange (b : Bool) (j : Nat) (s : State)
    (h : countersInRange s) : countersInRange (scan_debounce b j s) := by
  intro n hn
  have hcell := h n hn
  by_cases hc : n = dbIdx s.currentRow j
  · subst hc
    cases b
    · rw [scan_debounce_false_count]
      split_ifs <;> omega
    · rw [scan_debounce_true_count]
      split_ifs <;> omega
  · rw [scan_debounce_count_other b j n s hc]
    exact hcell

theorem scan_debounce_count_self (b : Bool) (j : Nat) (s : State) :
    (scan_debounce b j s).debounce_count (dbIdx s.currentRow j)
      = stepCount b (s.debounce_count (dbIdx s.currentRow j)) := by
  cases b
  · rw [scan_debounce_false_count]; simp [stepCount]
  · rw [scan_debounce_true_count]; simp [stepCount]

theorem scan_debounce_LED_self (b : Bool) (j : Nat) (s : State) :
    (scan_debounce b j s).LED_buffer (ledIdx s.currentRow j)
      = stepLED b (s.debounce_count (dbIdx s.currentRow j))
          (s.LED_buffer (ledIdx s.currentRow j)) := by
  cases b
  · rw [scan_debounce_false_LED]; simp [stepLED]
  · rw [scan_debounce_true_LED]; simp [stepLED]

theorem scan_debounce_serial (b : Bool) (j : Nat) (s : State) :
    (scan_debounce b j s).serial
      = s.serial ++ stepEvents b (s.currentRow * NUM_BTN_COLS + j)
          (s.debounce_count (dbIdx s.currentRow j)) := by
  cases b
  · rw [scan_debounce_false_serial]; simp [stepEvents]
  · rw [scan_debounce_true_serial]; simp [stepEvents]

/-- The debounce update neither reads nor writes the pin levels. -/
theorem scan_debounce_pins (b : Bool) (j : Nat) (s : State) (f : Nat → Level) :
    scan_debounce b j { s with pinLevel := f }
      = { scan_debounce b j s with pinLevel := f } := by
  unfold scan_debounce
  dsimp only
  split_ifs <;> rfl

theorem btnLoop_pins (rd : Nat → Level) (m : Nat) (s : State) (f : Nat → Level) :
    forUpTo m (scan_btnBody rd) { s with pinLevel := f }
      = { forUpTo m (scan_btnBody rd) s with pinLevel := f } := by
  induction m with
  | zero => rfl
  | succ k ih =>
    show scan_btnBody rd k (forUpTo k (scan_btnBody rd) { s with pinLevel := f }) = _
    rw [ih]
    exact scan_debounce_pins _ k _ f

theorem btnLoop_currentRow (rd : Nat → Level) (m : Nat) (s : State) :
    (forUpTo m (scan_btnBody rd) s).currentRow = s.currentRow :=
  forUpTo_preserves (fun t => t.currentRow = s.currentRow) _
    (fun i t ht => by
      show (scan_btnBody rd i t).currentRow = s.currentRow
      rw [scan_btnBody, scan_debounce_currentRow]; exact ht) m s rfl

/-- The LED loop only drives pins. -/
theorem ledLoop_pins (m : Nat) (s : State) :
    ∃ f, forUpTo m scan_ledBody s = { s with pinLevel := f } := by
  induction m with
  | zero => exact ⟨s.pinLevel, rfl⟩
  | succ k ih =>
    obtain ⟨f, hf⟩ := ih
    show ∃ g, scan_ledBody k (forUpTo k scan_ledBody s) = _
    rw [hf]
    unfold scan_ledBody
    split_ifs
    · exact ⟨_, rfl⟩
    · exact ⟨_, rfl⟩

/-- Apart from the pins and `currentRow`, the state after `scan` is the one
left by the switch loop run on the state before. -/
theorem scan_eq (rd : Nat → Level) (s : State) :
    ∃ f, scan rd s =
      { forUpTo NUM_BTN_COLS (scan_btnBody rd) s with
        pinLevel := f
        currentRow := nextRow s.currentRow } := by
  obtain ⟨f, hf⟩ := ledLoop_pins NUM_LED_COLS
    (digitalWrite (pinAt ledRowPins s.currentRow) Level.LOW
      (digitalWrite (pinAt btnRowPins s.currentRow) Level.LOW s))
  unfold scan
  dsimp only
  simp only [digitalWrite] at hf ⊢
  rw [hf, btnLoop_pins]
  simp only [btnLoop_currentRow]
  exact ⟨_, rfl⟩

theorem scan_debounce_count (rd : Nat → Level) (s : State) :
    (scan rd s).debounce_count
      = (forUpTo NUM_BTN_COLS (scan_btnBody rd) s).debounce_count := by
  obtain ⟨f, hf⟩ := scan_eq rd s
  rw [hf]

theorem scan_LED_buffer (rd : Nat → Level) (s : State) :
    (scan rd s).LED_buffer
      = (forUpTo NUM_BTN_COLS (scan_btnBody rd) s).LED_buffer := by
  obtain ⟨f, hf⟩ := scan_eq rd s
  rw [hf]

theorem scan_serial (rd : Nat → Level) (s : State) :
    (scan rd s).serial = (forUpTo NUM_BTN_COLS (scan_btnBody rd) s).serial := by
  obtain ⟨f, hf⟩ := scan_eq rd s
  rw [hf]

theorem scan_currentRow (rd : Nat → Level) (s : State) :
    (scan rd s).currentRow = nextRow s.currentRow := by
  obtain ⟨f, hf⟩ := scan_eq rd s
  rw [hf]

theorem dbIdx_lt (r j : Nat) : dbIdx r j < dbIdx r (j + 1) := by
  unfold dbIdx; omega

/-- Counters after the first `m` iterations of the switch loop. -/
theorem btnLoop_count (rd : Nat → Level) (m : Nat) (s : State) (n : Nat) :
    (forUpTo m (scan_btnBody rd) s).debounce_count n
      = if dbIdx s.currentRow 0 ≤ n ∧ n < dbIdx s.currentRow m
        then stepCount (rawPressed rd (n - dbIdx s.currentRow 0)) (s.debounce_count n)
        else s.debounce_count n := by
  induction m with
  | zero =>
    have : ¬ (dbIdx s.currentRow 0 ≤ n ∧ n < dbIdx s.currentRow 0) := by omega
    simp [forUpTo, this]
  | succ k ih =>
    show (scan_btnBody rd k (forUpTo k (scan_btnBody rd) s)).debounce_count n = _
    have hrow := btnLoop_currentRow rd k s
    by_cases hn : n = dbIdx s.currentRow k
    · subst hn
      have h1 := scan_debounce_count_self (rawPressed rd k) k (forUpTo k (scan_btnBody rd) s)
      rw [hrow] at h1
      rw [scan_btnBody, ← rawPressed, h1, ih]
      have h2 : ¬ (dbIdx s.currentRow 0 ≤ dbIdx s.currentRow k
          ∧ dbIdx s.currentRow k < dbIdx s.currentRow k) := by omega
      have h3 : dbIdx s.currentRow 0 ≤ dbIdx s.currentRow k
          ∧ dbIdx s.currentRow k < dbIdx s.currentRow (k + 1) := by
        unfold dbIdx; omega
      have h4 : dbIdx s.currentRow k - dbIdx s.currentRow 0 = k := by
        unfold dbIdx; omega
      rw [if_neg h2, if_pos h3, h4]
    · have h1 := scan_debounce_count_other (rawPressed rd k) k n
        (forUpTo k (scan_btnBody rd) s) (by rw [hrow]; exact hn)
      rw [scan_btnBody, ← rawPressed, h1, ih]
      have h5 : (dbIdx s.currentRow 0 ≤ n ∧ n < dbIdx s.currentRow (k + 1))
          ↔ (dbIdx s.currentRow 0 ≤ n ∧ n < dbIdx s.currentRow k) := by
        unfold dbIdx at hn ⊢; omega
      simp only [h5]

/-- LED cells after the first `m` iterations of the switch loop. -/
theorem btnLoop_LED (rd : Nat → Level) (m : Nat) (s : State) (n : Nat) :
    (forUpTo m (scan_btnBody rd) s).LED_buffer n
      = if ledIdx s.currentRow 0 ≤ n ∧ n < ledIdx s.currentRow m
        then stepLED (rawPressed rd (n - ledIdx s.currentRow 0))
          (s.debounce_count (dbIdx s.currentRow (n - ledIdx s.currentRow 0)))
          (s.LED_buffer n)
        else s.LED_buffer n := by
  induction m with
  | zero =>
    have : ¬ (ledIdx s.currentRow 0 ≤ n ∧ n < ledIdx s.currentRow 0) := by omega
    simp [forUpTo, this]
  | succ k ih =>
    show (scan_btnBody rd k (forUpTo k (scan_btnBody rd) s)).LED_buffer n = _
    have hrow := btnLoop_currentRow rd k s
    by_cases hn : n = ledIdx s.currentRow k
    · subst hn
      have h1 := scan_debounce_LED_self (rawPressed rd k) k (forUpTo k (scan_btnBody rd) s)
      rw [hrow] at h1
      have hc := btnLoop_count rd k s (dbIdx s.currentRow k)
      have h2 : ¬ (dbIdx s.currentRow 0 ≤ dbIdx s.currentRow k
          ∧ dbIdx s.currentRow k < dbIdx s.currentRow k) := by omega
      rw [if_neg h2] at hc
      rw [scan_btnBody, ← rawPressed, h1, ih, hc]
      have h6 : ¬ (ledIdx s.currentRow 0 ≤ ledIdx s.currentRow k
          ∧ ledIdx s.currentRow k < ledIdx s.currentRow k) := by omega
      have h3 : ledIdx s.currentRow 0 ≤ ledIdx s.currentRow k
          ∧ ledIdx s.currentRow k < ledIdx s.currentRow (k + 1) := by
        unfold ledIdx; omega
      have h4 : ledIdx s.currentRow k - ledIdx s.currentRow 0 = k := by
        unfold ledIdx; omega
      rw [if_neg h6, if_pos h3, h4]
    · have h1 := scan_debounce_LED_other (rawPressed rd k) k n
        (forUpTo k (scan_btnBody rd) s) (by rw [hrow]; exact hn)
      rw [scan_btnBody, ← rawPressed, h1, ih]
      have h5 : (ledIdx s.currentRow 0 ≤ n ∧ n < ledIdx s.currentRow (k + 1))
          ↔ (ledIdx s.currentRow 0 ≤ n ∧ n < ledIdx s.currentRow k) := by
        unfold ledIdx at hn ⊢; omega
      simp only [h5]

/-- Serial log after the first `m` iterations of the switch loop. -/
theorem btnLoop_serial (rd : Nat → Level) (m : Nat) (s : State) :
    (forUpTo m (scan_btnBody rd) s).serial
      = s.serial ++ (List.range m).flatMap (fun j =>
          stepEvents (rawPressed rd j) (s.currentRow * NUM_BTN_COLS + j)
            (s.debounce_count (dbIdx s.currentRow j))) := by
  induction m with
  | zero => simp [forUpTo]
  | succ k ih =>
    show (scan_btnBody rd k (forUpTo k (scan_btnBody rd) s)).serial = _
    have hrow := btnLoop_currentRow rd k s
    have hc := btnLoop_count rd k s (dbIdx s.currentRow k)
    have h2 : ¬ (dbIdx s.currentRow 0 ≤ dbIdx s.currentRow k
        ∧ dbIdx s.currentRow k < dbIdx s.currentRow k) := by omega
    rw [if_neg h2] at hc
    rw [scan_btnBody, ← rawPressed, scan_debounce_serial, hrow, hc, ih, List.range_succ,
      List.flatMap_append]
    simp

theorem stepCount_range (b : Bool) (k : Int) (h0 : 0 ≤ k) (h1 : k ≤ MAX_DEBOUNCE) :
    0 ≤ stepCount b k ∧ stepCount b k ≤ MAX_DEBOUNCE := by
  unfold stepCount
  split_ifs <;> omega

theorem scan_countersInRange (rd : Nat → Level) (s : State) (h : countersInRange s) :
    countersInRange (scan rd s) := by
  intro n hn
  rw [scan_debounce_count, btnLoop_count]
  split_ifs
  · exact stepCount_range _ _ (h n hn).1 (h n hn).2
  · exact h n hn

theorem runScans_snoc (rds : List (Nat → Level)) (rd : Nat → Level) (s : State) :
    runScans (rds ++ [rd]) s = scan rd (runScans rds s) := by
  simp [runScans, List.foldl_append]

theorem runScans_countersInRange (rds : List (Nat → Level)) (s : State)
    (h : countersInRange s) : countersInRange (runScans rds s) := by
  induction rds using List.reverseRecOn with
  | nil => exact h
  | append_singleton l rd ih => rw [runScans_snoc]; exact scan_countersInRange rd _ ih

/-- Feeding samples to one switch keeps its counter inside `[0, MAX_DEBOUNCE]`. -/
theorem feed_count_range (j : Nat) (l : List Bool) (s : State)
    (h0 : 0 ≤ s.debounce_count (dbIdx s.currentRow j))
    (h1 : s.debounce_count (dbIdx s.currentRow j) ≤ MAX_DEBOUNCE) :
    0 ≤ (feed j l s).debounce_count (dbIdx s.currentRow j)
    ∧ (feed j l s).debounce_count (dbIdx s.currentRow j) ≤ MAX_DEBOUNCE := by
  induction l using List.reverseRecOn with
  | nil => exact ⟨h0, h1⟩
  | append_singleton l b ih =>
    have hs := scan_debounce_count_self b j (feed j l s)
    rw [feed_currentRow] at hs
    rw [feed_snoc, hs]
    exact stepCount_range b _ ih.1 ih.2

/-- State of one switch after `m` raw pressed samples starting from counter 0. -/
theorem feed_pressed_run (j m : Nat) (s : State)
    (h0 : s.debounce_count (dbIdx s.currentRow j) = 0) :
    (feed j (List.replicate m true) s).debounce_count (dbIdx s.currentRow j)
        = (if m < 3 then (m : Int) else 3)
    ∧ (feed j (List.replicate m true) s).serial
        = s.serial ++ (if m < 3 then [] else [Event.pressed (s.currentRow * NUM_BTN_COLS + j)]) := by
  induction m with
  | zero => simp [feed, h0]
  | succ k ih =>
    have hc := scan_debounce_count_self true j (feed j (List.replicate k true) s)
    have hs := scan_debounce_serial true j (feed j (List.replicate k true) s)
    rw [feed_currentRow] at hc hs
    rw [List.replicate_succ', feed_snoc, hc, hs, ih.1, ih.2]
    have hk : k < 2 ∨ k = 2 ∨ 3 ≤ k := by omega
    rcases hk with h | h | h
    · have a : k < 3 := by omega
      have b : k + 1 < 3 := by omega
      have c : ¬ ((k : Int) = 2) := by omega
      have d : (k : Int) < 3 := by omega
      simp [stepCount, stepEvents, MAX_DEBOUNCE, a, b, c, d]
    · subst h
      simp [stepCount, stepEvents, MAX_DEBOUNCE]
    · have a : ¬ k < 3 := by omega
      have b : ¬ k + 1 < 3 := by omega
      simp [stepCount, stepEvents, MAX_DEBOUNCE, a, b]

/-- State of one switch after `m` raw released samples starting from counter
`MAX_DEBOUNCE`. -/
theorem feed_released_run (j m : Nat) (s : State)
    (h0 : s.debounce_count (dbIdx s.currentRow j) = MAX_DEBOUNCE) :
    (feed j (List.replicate m false) s).debounce_count (dbIdx s.currentRow j)
        = (if m < 3 then 3 - (m : Int) else 0)
    ∧ (feed j (List.replicate m false) s).serial
        = s.serial ++ (if m < 3 then [] else [Event.released (s.currentRow * NUM_BTN_COLS + j)]) := by
  induction m with
  | zero => simp [feed, h0, MAX_DEBOUNCE]
  | succ k ih =>
    have hc := scan_debounce_count_self false j (feed j (List.replicate k false) s)
    have hs := scan_debounce_serial false j (feed j (List.replicate k false) s)
    rw [feed_currentRow] at hc hs
    rw [List.replicate_succ', feed_snoc, hc, hs, ih.1, ih.2]
    have hk : k < 2 ∨ k = 2 ∨ 3 ≤ k := by omega
    rcases hk with h | h | h
    · have a : k < 3 := by omega
      have b : k + 1 < 3 := by omega
      have c : ¬ ((3 : Int) - k = 1) := by omega
      have d : (3 : Int) - k > 0 := by omega
      have e : (3 : Int) - k - 1 = 3 - (k + 1) := by omega
      simp [stepCount, stepEvents, a, b, c, d, e]
    · subst h
      simp [stepCount, stepEvents]
    · have a : ¬ k < 3 := by omega
      have b : ¬ k + 1 < 3 := by omega
      simp [stepCount, stepEvents, a, b]

theorem alternating_succ (n : Nat) :
    alternating (n + 1) = alternating n ++ [decide (n % 2 = 0)] := by
  simp [alternating, List.range_succ]

/-- State of one switch after `n` alternating samples starting from counter 0:
the counter is `n % 2`, and each released sample has printed a release line. -/
theorem feed_alternating (j n : Nat) (s : State)
    (h0 : s.debounce_count (dbIdx s.currentRow j) = 0) :
    (feed j (alternating n) s).debounce_count (dbIdx s.currentRow j) = ((n % 2 : Nat) : Int)
    ∧ (feed j (alternating n) s).serial
        = s.serial ++ List.replicate (n / 2)
            (Event.released (s.currentRow * NUM_BTN_COLS + j)) := by
  induction n with
  | zero => simp [feed, alternating, h0]
  | succ k ih =>
    have hc := scan_debounce_count_self (decide (k % 2 = 0)) j (feed j (alternating k) s)
    have hs := scan_debounce_serial (decide (k % 2 = 0)) j (feed j (alternating k) s)
    rw [feed_currentRow] at hc hs
    rw [alternating_succ, feed_snoc, hc, hs, ih.1, ih.2]
    rcases Nat.mod_two_eq_zero_or_one k with h | h
    · have a : (k + 1) % 2 = 1 := by omega
      have b : (k + 1) / 2 = k / 2 := by omega
      simp [stepCount, stepEvents, MAX_DEBOUNCE, h, a, b]
    · have a : (k + 1) % 2 = 0 := by omega
      have b : (k + 1) / 2 = k / 2 + 1 := by omega
      simp [stepCount, stepEvents, MAX_DEBOUNCE, h, a, b, List.replicate_succ']

/-- Serial lines printed by one `scan` call, column by column. -/
theorem emitted_eq (rd : Nat → Level) (s : State) :
    emitted rd s = (List.range NUM_BTN_COLS).flatMap (fun j =>
      stepEvents (rawPressed rd j) (s.currentRow * NUM_BTN_COLS + j)
        (s.debounce_count (dbIdx s.currentRow j))) := by
  rw [emitted, scan_serial, btnLoop_serial, List.drop_left]

theorem keyEvents_append (k : Nat) (l₁ l₂ : List Event) :
    keyEvents k (l₁ ++ l₂) = keyEvents k l₁ ++ keyEvents k l₂ := by
  simp [keyEvents]

theorem keyEvents_stepEvents (k key : Nat) (b : Bool) (c : Int) :
    keyEvents k (stepEvents b key c) = if key = k then stepEvents b key c else [] := by
  unfold keyEvents stepEvents
  split_ifs <;> simp_all

/-- A scan of row 0 applies one debounce update to switch `(0, 0)`. -/
theorem scan_row0_switch00 (rd : Nat → Level) (s : State) (k : Int) (led : Bool)
    (h : switch00 s 0 k led) :
    switch00 (scan rd s) 1 (stepCount (rawPressed rd 0) k) (stepLED (rawPressed rd 0) k led)
    ∧ keyEvents 0 (emitted rd s) = stepEvents (rawPressed rd 0) 0 k := by
  obtain ⟨hr, hk, hl⟩ := h
  refine ⟨⟨?_, ?_, ?_⟩, ?_⟩
  · rw [scan_currentRow, hr]; rfl
  · rw [scan_debounce_count, btnLoop_count, hr, if_pos (by decide), hk]; rfl
  · rw [scan_LED_buffer, btnLoop_LED, hr, if_pos (by decide), hl]
    show stepLED (rawPressed rd 0) (s.debounce_count (dbIdx 0 0)) led = _
    rw [hk]
  · rw [emitted_eq, hr]
    simp only [NUM_BTN_COLS, List.range_succ, List.range_zero, List.nil_append,
      List.flatMap_append, List.flatMap_cons, List.flatMap_nil, List.append_nil,
      keyEvents_append, keyEvents_stepEvents]
    rw [hk]
    simp

/-- A scan of row 1 leaves switch `(0, 0)` alone and prints nothing for key 0. -/
theorem scan_row1_switch00 (rd : Nat → Level) (s : State) (k : Int) (led : Bool)
    (h : switch00 s 1 k led) :
    switch00 (scan rd s) 0 k led ∧ keyEvents 0 (emitted rd s) = [] := by
  obtain ⟨hr, hk, hl⟩ := h
  refine ⟨⟨?_, ?_, ?_⟩, ?_⟩
  · rw [scan_currentRow, hr]; rfl
  · rw [scan_debounce_count, btnLoop_count, hr, if_neg (by decide), hk]
  · rw [scan_LED_buffer, btnLoop_LED, hr, if_neg (by decide), hl]
  · rw [emitted_eq, hr]
    simp only [NUM_BTN_COLS, List.range_succ, List.range_zero, List.nil_append,
      List.flatMap_append, List.flatMap_cons, List.flatMap_nil, List.append_nil,
      keyEvents_append, keyEvents_stepEvents]
    simp


/-- Events of one switch printed by a `scan` call: those of its own debounce
update. -/
theorem keyEvents_emitted (rd : Nat → Level) (s : State) (c : Nat) (hc : c < NUM_BTN_COLS) :
    keyEvents (s.currentRow * NUM_BTN_COLS + c) (emitted rd s)
      = stepEvents (rawPressed rd c) (s.currentRow * NUM_BTN_COLS + c)
          (s.debounce_count (dbIdx s.currentRow c)) := by
  rw [emitted_eq]
  simp only [NUM_BTN_COLS, List.range_succ, List.range_zero, List.nil_append,
    List.flatMap_append, List.flatMap_cons, List.flatMap_nil, List.append_nil,
    keyEvents_append, keyEvents_stepEvents]
  unfold NUM_BTN_COLS at hc
  interval_cases c <;> simp

/-- Counter of one switch after a `scan` call of its row: one debounce update. -/
theorem scan_count_switch (rd : Nat → Level) (s : State) (c : Nat) (hc : c < NUM_BTN_COLS) :
    (scan rd s).debounce_count (dbIdx s.currentRow c)
      = stepCount (rawPressed rd c) (s.debounce_count (dbIdx s.currentRow c)) := by
  rw [scan_debounce_count, btnLoop_count]
  have h1 : dbIdx s.currentRow 0 ≤ dbIdx s.currentRow c
      ∧ dbIdx s.currentRow c < dbIdx s.currentRow NUM_BTN_COLS := by
    unfold dbIdx; omega
  have h2 : dbIdx s.currentRow c - dbIdx s.currentRow 0 = c := by
    unfold dbIdx; omega
  rw [if_pos h1, h2]

/-- LED cell of one switch after a `scan` call of its row. -/
theorem scan_LED_switch (rd : Nat → Level) (s : State) (c : Nat) (hc : c < NUM_BTN_COLS) :
    (scan rd s).LED_buffer (ledIdx s.currentRow c)
      = stepLED (rawPressed rd c) (s.debounce_count (dbIdx s.currentRow c))
          (s.LED_buffer (ledIdx s.currentRow c)) := by
  rw [scan_LED_buffer, btnLoop_LED]
  have h1 : ledIdx s.currentRow 0 ≤ ledIdx s.currentRow c
      ∧ ledIdx s.currentRow c < ledIdx s.currentRow NUM_BTN_COLS := by
    unfold ledIdx; omega
  have h2 : ledIdx s.currentRow c - ledIdx s.currentRow 0 = c := by
    unfold ledIdx; omega
  rw [if_pos h1, h2]

theorem stepEvents_key (b : Bool) (key : Nat) (k : Int) (e : Event)
    (h : e ∈ stepEvents b key k) : e.key = key := by
  unfold stepEvents at h
  split_ifs at h <;> simp_all [Event.key]

/-- Every line printed by a `scan` call carries the key index of a column of
the row being scanned. -/
theorem emitted_key (rd : Nat → Level) (s : State) (e : Event) (h : e ∈ emitted rd s) :
    ∃ j, j < NUM_BTN_COLS ∧ e.key = s.currentRow * NUM_BTN_COLS + j := by
  rw [emitted_eq, List.mem_flatMap] at h
  obtain ⟨j, hj, he⟩ := h
  exact ⟨j, List.mem_range.mp hj, stepEvents_key _ _ _ e he⟩

/-- Counter of one switch after `m` raw pressed samples. -/
theorem feed_true_count (j m : Nat) (s : State)
    (h0 : 0 ≤ s.debounce_count (dbIdx s.currentRow j))
    (h1 : s.debounce_count (dbIdx s.currentRow j) ≤ MAX_DEBOUNCE) :
    (feed j (List.replicate m true) s).debounce_count (dbIdx s.currentRow j)
      = min (s.debounce_count (dbIdx s.currentRow j) + m) MAX_DEBOUNCE := by
  induction m with
  | zero => simp [feed, h1]
  | succ k ih =>
    have hc := scan_debounce_count_self true j (feed j (List.replicate k true) s)
    rw [feed_currentRow] at hc
    rw [List.replicate_succ', feed_snoc, hc, ih]
    unfold stepCount MAX_DEBOUNCE at *
    simp only [if_true]
    push_cast
    split_ifs <;> omega

/-- Counter of one switch after `m` raw released samples. -/
theorem feed_false_count (j m : Nat) (s : State)
    (h0 : 0 ≤ s.debounce_count (dbIdx s.currentRow j))
    (h1 : s.debounce_count (dbIdx s.currentRow j) ≤ MAX_DEBOUNCE) :
    (feed j (List.replicate m false) s).debounce_count (dbIdx s.currentRow j)
      = max (s.debounce_count (dbIdx s.currentRow j) - m) 0 := by
  induction m with
  | zero => simp [feed, h0]
  | succ k ih =>
    have hc := scan_debounce_count_self false j (feed j (List.replicate k false) s)
    rw [feed_currentRow] at hc
    rw [List.replicate_succ', feed_snoc, hc, ih]
    unfold stepCount MAX_DEBOUNCE at *
    simp only [Bool.false_eq_true, if_false]
    push_cast
    split_ifs <;> omega

/-- The state after `scan`, phase by phase. -/
theorem scan_phases (rd : Nat → Level) (s : State) :
    scan rd s =
      { forUpTo NUM_LED_ROWS (fun i s => digitalWrite (pinAt ledColPins i) Level.LOW s)
          (digitalWrite (pinAt ledRowPins (scan_input rd s).currentRow) Level.HIGH
            (digitalWrite (pinAt btnRowPins (scan_input rd s).currentRow) Level.HIGH
              (scan_input rd s))) with
        currentRow := nextRow
          (forUpTo NUM_LED_ROWS (fun i s => digitalWrite (pinAt ledColPins i) Level.LOW s)
            (digitalWrite (pinAt ledRowPins (scan_input rd s).currentRow) Level.HIGH
              (digitalWrite (pinAt btnRowPins (scan_input rd s).currentRow) Level.HIGH
                (scan_input rd s)))).currentRow } := rfl

/-- A loop whose iterations leave pin `p` alone leaves pin `p` alone. -/
theorem forUpTo_pinLevel (body : Nat → State → State) (p : Nat)
    (h : ∀ i s, (body i s).pinLevel p = s.pinLevel p) (n : Nat) (s : State) :
    (forUpTo n body s).pinLevel p = s.pinLevel p :=
  forUpTo_preserves (fun t => t.pinLevel p = s.pinLevel p) body
    (fun i t ht => by
      show (body i t).pinLevel p = s.pinLevel p
      rw [h i t]; exact ht) n s rfl

theorem forUpTo_currentRow (body : Nat → State → State)
    (h : ∀ i s, (body i s).currentRow = s.currentRow) (n : Nat) (s : State) :
    (forUpTo n body s).currentRow = s.currentRow :=
  forUpTo_preserves (fun t => t.currentRow = s.currentRow) body
    (fun i t ht => by
      show (body i t).currentRow = s.currentRow
      rw [h i t]; exact ht) n s rfl

theorem scan_ledBody_pinLevel (p : Nat) (hp : notLedCol p) (i : Nat) (s : State) :
    (scan_ledBody i s).pinLevel p = s.pinLevel p := by
  unfold scan_ledBody digitalWrite
  split_ifs
  · have := hp i
    simp only
    rw [if_neg (fun h => this h.symm)]
  · rfl

theorem scan_ledBody_currentRow (i : Nat) (s : State) :
    (scan_ledBody i s).currentRow = s.currentRow := by
  unfold scan_ledBody digitalWrite
  split_ifs <;> rfl

theorem scan_select_pinLevel (s : State) (p : Nat) :
    (scan_select s).pinLevel p
      = if p = pinAt ledRowPins s.currentRow then Level.LOW
        else if p = pinAt btnRowPins s.currentRow then Level.LOW else s.pinLevel p := rfl

theorem scan_output_currentRow (s : State) : (scan_output s).currentRow = s.currentRow := by
  unfold scan_output
  rw [forUpTo_currentRow _ scan_ledBody_currentRow]
  rfl

theorem scan_input_currentRow (rd : Nat → Level) (s : State) :
    (scan_input rd s).currentRow = s.currentRow := by
  unfold scan_input
  rw [btnLoop_currentRow, scan_output_currentRow]

/-- Level of a pin that is no LED column line at the end of the output phase. -/
theorem scan_output_pinLevel (s : State) (p : Nat) (hp : notLedCol p) :
    (scan_output s).pinLevel p
      = if p = pinAt ledRowPins s.currentRow then Level.LOW
        else if p = pinAt btnRowPins s.currentRow then Level.LOW else s.pinLevel p := by
  unfold scan_output
  rw [forUpTo_pinLevel _ p (scan_ledBody_pinLevel p hp), scan_select_pinLevel]

/-- Level of a pin that is no LED column line at the end of the input phase. -/
theorem scan_input_pinLevel (rd : Nat → Level) (s : State) (p : Nat) (hp : notLedCol p) :
    (scan_input rd s).pinLevel p
      = if p = pinAt ledRowPins s.currentRow then Level.LOW
        else if p = pinAt btnRowPins s.currentRow then Level.LOW else s.pinLevel p := by
  unfold scan_input
  rw [forUpTo_pinLevel _ p (fun i t => by rw [scan_btnBody, scan_debounce_pinLevel]),
    scan_output_pinLevel s p hp]

/-- Level of a pin that is no LED column line when `scan` returns. -/
theorem scan_pinLevel (rd : Nat → Level) (s : State) (p : Nat) (hp : notLedCol p) :
    (scan rd s).pinLevel p
      = if p = pinAt ledRowPins s.currentRow then Level.HIGH
        else if p = pinAt btnRowPins s.currentRow then Level.HIGH else s.pinLevel p := by
  rw [scan_phases]
  show (forUpTo NUM_LED_ROWS (fun i s => digitalWrite (pinAt ledColPins i) Level.LOW s)
    _).pinLevel p = _
  rw [forUpTo_pinLevel _ p (fun i t => by
    show (if p = pinAt ledColPins i then Level.LOW else t.pinLevel p) = t.pinLevel p
    rw [if_neg (fun h => hp i h.symm)])]
  show (if p = pinAt ledRowPins (scan_input rd s).currentRow then Level.HIGH
    else if p = pinAt btnRowPins (scan_input rd s).currentRow then Level.HIGH
    else (scan_input rd s).pinLevel p) = _
  rw [scan_input_currentRow, scan_input_pinLevel rd s p hp]
  split_ifs <;> rfl

theorem notLedCol_of (p : Nat) (h5 : p ≠ 5) (h6 : p ≠ 6) (h7 : p ≠ 7) (h0 : p ≠ 0) :
    notLedCol p := by
  intro i
  unfold pinAt ledColPins
  rcases i with _ | _ | _ | _ | i <;> simp <;> omega

theorem nextRow_lt (r : Nat) : nextRow r < NUM_BTN_ROWS := by
  unfold nextRow NUM_LED_ROWS NUM_BTN_ROWS
  split_ifs <;> omega

theorem nextRow_mod (r : Nat) (h : r < NUM_BTN_ROWS) : nextRow r = (r + 1) % NUM_BTN_ROWS := by
  unfold nextRow NUM_LED_ROWS NUM_BTN_ROWS at *
  split_ifs <;> omega

theorem runScans_currentRow (rds : List (Nat → Level)) (s : State)
    (h : s.currentRow < NUM_BTN_ROWS) :
    (runScans rds s).currentRow < NUM_BTN_ROWS
    ∧ (runScans rds s).currentRow = (s.currentRow + rds.length) % NUM_BTN_ROWS := by
  induction rds using List.reverseRecOn with
  | nil =>
    refine ⟨h, ?_⟩
    unfold NUM_BTN_ROWS at *
    simp only [runScans, List.foldl_nil, List.length_nil]
    omega
  | append_singleton l rd ih =>
    rw [runScans_snoc, scan_currentRow]
    refine ⟨nextRow_lt _, ?_⟩
    rw [nextRow_mod _ ih.1, ih.2, List.length_append]
    unfold NUM_BTN_ROWS
    simp only [List.length_singleton]
    omega

theorem rowPins_notLedCol (r : Nat) (h : r < NUM_BTN_ROWS) :
    notLedCol (pinAt btnRowPins r) ∧ notLedCol (pinAt ledRowPins r) := by
  unfold NUM_BTN_ROWS at h
  interval_cases r <;> exact ⟨notLedCol_of _ (by decide) (by decide) (by decide) (by decide),
    notLedCol_of _ (by decide) (by decide) (by decide) (by decide)⟩

theorem setup_boot_rowLinesHigh (hw : State) : rowLinesHigh (setup (boot hw)) := by
  constructor
  · intro r hr
    unfold NUM_BTN_ROWS at hr
    interval_cases r <;> rfl
  · intro r hr
    unfold NUM_LED_ROWS at hr
    interval_cases r <;> rfl

theorem scan_rowLinesHigh (rd : Nat → Level) (s : State)
    (h : rowLinesHigh s) : rowLinesHigh (scan rd s) := by
  constructor
  · intro r hr
    rw [scan_pinLevel rd s _ (rowPins_notLedCol r hr).1]
    split_ifs
    · rfl
    · rfl
    · exact h.1 r hr
  · intro r hr
    rw [scan_pinLevel rd s _ (rowPins_notLedCol r hr).2]
    split_ifs
    · rfl
    · rfl
    · exact h.2 r hr

theorem runScans_rowLinesHigh (rds : List (Nat → Level)) (s : State) (h : rowLinesHigh s) :
    rowLinesHigh (runScans rds s) := by
  induction rds using List.reverseRecOn with
  | nil => exact h
  | append_singleton l rd ih =>
    rw [runScans_snoc]
    exact scan_rowLinesHigh rd _ ih

theorem setup_boot_countersInRange (hw : State) : countersInRange (setup (boot hw)) := by
  intro n _
  rw [setup_boot_debounce_count]
  simp [MAX_DEBOUNCE]

theorem setup_boot_ledMirrorsCounters (hw : State) : ledMirrorsCounters (setup (boot hw)) := by
  intro r _ c _
  rw [setup_boot_debounce_count, setup_boot_LED_buffer]
  simp [MAX_DEBOUNCE]

/-- One `scan` call keeps the LED buffer in step with the saturated counters. -/
theorem scan_ledMirrorsCounters (rd : Nat → Level) (s : State)
    (hr : countersInRange s) (h : ledMirrorsCounters s) : ledMirrorsCounters (scan rd s) := by
  intro r hrow c hc
  have hm := h r hrow c hc
  have hrange := hr (dbIdx r c) (by unfold dbIdx NUM_BTN_COLS NUM_BTN_ROWS at *; omega)
  rw [scan_debounce_count, scan_LED_buffer, btnLoop_count, btnLoop_LED]
  by_cases hin : dbIdx s.currentRow 0 ≤ dbIdx r c ∧ dbIdx r c < dbIdx s.currentRow NUM_BTN_COLS
  · have hin' : ledIdx s.currentRow 0 ≤ ledIdx r c
        ∧ ledIdx r c < ledIdx s.currentRow NUM_BTN_COLS := by
      unfold dbIdx ledIdx NUM_BTN_ROWS NUM_LED_ROWS at *; omega
    have e1 : dbIdx s.currentRow (ledIdx r c - ledIdx s.currentRow 0) = dbIdx r c := by
      unfold dbIdx ledIdx NUM_BTN_ROWS NUM_LED_ROWS at *; omega
    have e2 : ledIdx r c - ledIdx s.currentRow 0 = dbIdx r c - dbIdx s.currentRow 0 := by
      unfold dbIdx ledIdx NUM_BTN_ROWS NUM_LED_ROWS at *; omega
    rw [if_pos hin, if_pos hin', e1, e2]
    generalize rawPressed rd (dbIdx r c - dbIdx s.currentRow 0) = b
    generalize s.debounce_count (dbIdx r c) = k at hm hrange ⊢
    generalize s.LED_buffer (ledIdx r c) = l at hm ⊢
    unfold stepCount stepLED MAX_DEBOUNCE at *
    cases b
    · simp only [Bool.false_eq_true, if_false]
      constructor
      · intro h3
        have hk : k = 3 := by split_ifs at h3 <;> omega
        have hk1 : ¬ k = 1 := by omega
        rw [if_neg hk1]
        exact hm.1 hk
      · intro h0
        by_cases hk1 : k = 1
        · rw [if_pos hk1]
        · rw [if_neg hk1]
          apply hm.2
          split_ifs at h0 <;> omega
    · simp only [if_true]
      constructor
      · intro h3
        by_cases hk2 : k = 3 - 1
        · rw [if_pos hk2]
        · rw [if_neg hk2]
          apply hm.1
          split_ifs at h3 <;> omega
      · intro h0
        have hk : k = 0 := by split_ifs at h0 <;> omega
        exfalso
        split_ifs at h0 <;> omega
  · have hin' : ¬ (ledIdx s.currentRow 0 ≤ ledIdx r c
        ∧ ledIdx r c < ledIdx s.currentRow NUM_BTN_COLS) := by
      unfold dbIdx ledIdx NUM_BTN_ROWS NUM_LED_ROWS at *; omega
    rw [if_neg hin, if_neg hin']
    exact hm

theorem runScans_ledMirrorsCounters (rds : List (Nat → Level)) (s : State)
    (hr : countersInRange s) (h : ledMirrorsCounters s) :
    ledMirrorsCounters (runScans rds s) := by
  induction rds using List.reverseRecOn with
  | nil => exact h
  | append_singleton l rd ih =>
    rw [runScans_snoc]
    exact scan_ledMirrorsCounters rd _ (runScans_countersInRange l s hr) ih

theorem scanChecked_ledBody_two (s : State) : scanChecked_ledBody 2 s = none := by
  unfold scanChecked_ledBody LED_buffer_at NUM_LED_ROWS
  simp

theorem scanChecked_btnBody_two (rd : Nat → Level) (s : State) :
    scanChecked_btnBody rd 2 s = none := by
  unfold scanChecked_btnBody debounce_count_at NUM_BTN_ROWS btnColPins
  simp

/-- The checked LED loop over all `NUM_LED_COLS` columns always fails. -/
theorem scanChecked_ledLoop (s : State) :
    forUpToM NUM_LED_COLS scanChecked_ledBody s = none := by
  show ((forUpToM 2 scanChecked_ledBody s).bind (scanChecked_ledBody 2)).bind
    (scanChecked_ledBody 3) = none
  cases forUpToM 2 scanChecked_ledBody s with
  | none => rfl
  | some t => simp [scanChecked_ledBody_two]

theorem scanChecked_none (rd : Nat → Level) (s : State) : scanChecked rd s = none := by
  unfold scanChecked
  cases btnRowPins.get? s.currentRow with
  | none => rfl
  | some p =>
    cases ledRowPins.get? s.currentRow with
    | none => rfl
    | some q => simp [scanChecked_ledLoop]

theorem scan_serial_append (rd : Nat → Level) (s : State) :
    (scan rd s).serial = s.serial ++ emitted rd s := by
  rw [emitted_eq, scan_serial, btnLoop_serial]

theorem runScans_cons (rd : Nat → Level) (rds : List (Nat → Level)) (s : State) :
    runScans (rd :: rds) s = runScans rds (scan rd s) := rfl

theorem runScans_append (l₁ l₂ : List (Nat → Level)) (s : State) :
    runScans (l₁ ++ l₂) s = runScans l₂ (runScans l₁ s) := by
  simp [runScans, List.foldl_append]

/-- The serial log only grows. -/
theorem runScans_serial (rds : List (Nat → Level)) (s : State) :
    (runScans rds s).serial = s.serial ++ emittedBy rds s := by
  induction rds generalizing s with
  | nil => simp [emittedBy, runScans]
  | cons rd rest ih =>
    have h1 := ih (scan rd s)
    rw [scan_serial_append, List.append_assoc] at h1
    rw [emittedBy, runScans_cons, h1, List.drop_left]

theorem keyEvents_self (b : Bool) (key : Nat) (k : Int) :
    keyEvents key (stepEvents b key k) = stepEvents b key k := by
  rw [keyEvents_stepEvents, if_pos rfl]

/-- A debounce update of switch `(r, c)` acts on its view as `switchStep`. -/
theorem scan_debounce_view (b : Bool) (r c : Nat) (s : State) (h : s.currentRow = r) :
    switchView r c (scan_debounce b c s)
      = switchStep (r * NUM_BTN_COLS + c) (switchView r c s) b := by
  subst h
  unfold switchView switchStep
  rw [scan_debounce_count_self, scan_debounce_LED_self, scan_debounce_serial, keyEvents_append,
    keyEvents_self]

theorem feed_cons (j : Nat) (b : Bool) (l : List Bool) (s : State) :
    feed j (b :: l) s = feed j l (scan_debounce b j s) := rfl

theorem feed_view (r c : Nat) (l : List Bool) (s : State) (h : s.currentRow = r) :
    switchView r c (feed c l s)
      = l.foldl (switchStep (r * NUM_BTN_COLS + c)) (switchView r c s) := by
  induction l generalizing s with
  | nil => rfl
  | cons b l ih =>
    rw [feed_cons, ih _ (by rw [scan_debounce_currentRow]; exact h), List.foldl_cons,
      scan_debounce_view b r c s h]

/-- A scan of the switch's own row applies one debounce update to its view. -/
theorem scan_view_own (rd : Nat → Level) (r c : Nat) (s : State) (h : s.currentRow = r)
    (hc : c < NUM_BTN_COLS) :
    switchView r c (scan rd s)
      = switchStep (r * NUM_BTN_COLS + c) (switchView r c s) (rawPressed rd c) := by
  subst h
  unfold switchView switchStep
  rw [scan_count_switch rd s c hc, scan_LED_switch rd s c hc, scan_serial_append,
    keyEvents_append, keyEvents_emitted rd s c hc]

/-- A scan of another row leaves the view of a switch with cells of its own
as it was. -/
theorem scan_view_other (rd : Nat → Level) (r c : Nat) (s : State)
    (hrow : s.currentRow < NUM_BTN_ROWS) (hne : s.currentRow ≠ r)
    (hc : c < NUM_BTN_COLS) (hown : ownCell r c) :
    switchView r c (scan rd s) = switchView r c s := by
  have hcount : ¬ (dbIdx s.currentRow 0 ≤ dbIdx r c
      ∧ dbIdx r c < dbIdx s.currentRow NUM_BTN_COLS) := by
    intro hin
    have := (hown s.currentRow hrow hne (dbIdx r c - dbIdx s.currentRow 0)
      (by unfold dbIdx NUM_BTN_COLS at *; omega)).1
    apply this
    unfold dbIdx at *; omega
  have hled : ¬ (ledIdx s.currentRow 0 ≤ ledIdx r c
      ∧ ledIdx r c < ledIdx s.currentRow NUM_BTN_COLS) := by
    intro hin
    have := (hown s.currentRow hrow hne (ledIdx r c - ledIdx s.currentRow 0)
      (by unfold ledIdx NUM_BTN_COLS at *; omega)).2
    apply this
    unfold ledIdx at *; omega
  have hev : keyEvents (r * NUM_BTN_COLS + c) (emitted rd s) = [] := by
    unfold keyEvents
    rw [List.filter_eq_nil_iff]
    intro e he
    obtain ⟨j, hj, hkey⟩ := emitted_key rd s e he
    have hk : e.key ≠ r * NUM_BTN_COLS + c := by
      rw [hkey]
      unfold NUM_BTN_COLS at *
      omega
    cases e with
    | pressed k => simp only [Event.key] at hk; simp [hk]
    | released k => simp only [Event.key] at hk; simp [hk]
  unfold switchView
  rw [scan_debounce_count, btnLoop_count, if_neg hcount, scan_LED_buffer, btnLoop_LED,
    if_neg hled, scan_serial_append, keyEvents_append, hev, List.append_nil]

/-- Program and isolated update agree on a switch with cells of its own: after
any successive `scan` calls its view is the one obtained by applying the debounce
update to the samples those calls took of it. -/
theorem runScans_view (r c : Nat) (hc : c < NUM_BTN_COLS) (hown : ownCell r c)
    (rds : List (Nat → Level)) (s : State) (hrow : s.currentRow < NUM_BTN_ROWS) :
    switchView r c (runScans rds s)
      = (samplesOf r c s.currentRow rds).foldl (switchStep (r * NUM_BTN_COLS + c))
          (switchView r c s) := by
  induction rds generalizing s with
  | nil => rfl
  | cons rd rest ih =>
    have hnext : (scan rd s).currentRow < NUM_BTN_ROWS := by
      rw [scan_currentRow]; exact nextRow_lt _
    rw [runScans_cons, ih (scan rd s) hnext, scan_currentRow]
    show _ = ((if s.currentRow = r then [rawPressed rd c] else [])
      ++ samplesOf r c (nextRow s.currentRow) rest).foldl _ _
    rw [List.foldl_append]
    by_cases h : s.currentRow = r
    · rw [if_pos h, scan_view_own rd r c s h hc]
      rfl
    · rw [if_neg h, scan_view_other rd r c s hrow h hc hown]
      rfl

/-- The view of a switch with cells of its own after successive `scan` calls is
its view after `feed` of the samples taken, run on the state with the cursor on
its row. -/
theorem runScans_view_feed (r c : Nat) (hc : c < NUM_BTN_COLS) (hown : ownCell r c)
    (rds : List (Nat → Level)) (s : State) (hrow : s.currentRow < NUM_BTN_ROWS) :
    switchView r c (runScans rds s)
      = switchView r c (feed c (samplesOf r c s.currentRow rds) { s with currentRow := r }) := by
  rw [runScans_view r c hc hown rds s hrow, feed_view r c _ _ rfl]
  rfl

/-- Lines printed for a key during a run, from the views before and after. -/
theorem keyEvents_emittedBy (key : Nat) (rds : List (Nat → Level)) (s : State)
    (evs : List Event)
    (h : keyEvents key (runScans rds s).serial = keyEvents key s.serial ++ evs) :
    keyEvents key (emittedBy rds s) = evs := by
  rw [runScans_serial, keyEvents_append] at h
  exact List.append_cancel_left h

theorem switchStep_range (key : Nat) (v : Int × Bool × List Event) (b : Bool)
    (h0 : 0 ≤ v.1) (h1 : v.1 ≤ MAX_DEBOUNCE) :
    0 ≤ (switchStep key v b).1 ∧ (switchStep key v b).1 ≤ MAX_DEBOUNCE :=
  stepCount_range b v.1 h0 h1

theorem switchRun_range (key : Nat) (l : List Bool) (v : Int × Bool × List Event)
    (h0 : 0 ≤ v.1) (h1 : v.1 ≤ MAX_DEBOUNCE) :
    0 ≤ (l.foldl (switchStep key) v).1 ∧ (l.foldl (switchStep key) v).1 ≤ MAX_DEBOUNCE := by
  induction l generalizing v with
  | nil => exact ⟨h0, h1⟩
  | cons b l ih =>
    rw [List.foldl_cons]
    exact ih _ (switchStep_range key v b h0 h1).1 (switchStep_range key v b h0 h1).2

/-- While fewer released samples have been taken than the counter held, the LED
entry stays true and no release line is printed. -/
theorem switchRun_lit (key : Nat) (l : List Bool) (k : Int) (evs : List Event)
    (h1 : k ≤ MAX_DEBOUNCE) (hl : ((l.count false : Nat) : Int) < k) :
    (l.foldl (switchStep key) (k, true, evs)).2.1 = true
    ∧ (k - ((l.count false : Nat) : Int) ≤ (l.foldl (switchStep key) (k, true, evs)).1)
    ∧ ∃ z, (l.foldl (switchStep key) (k, true, evs)).2.2 = evs ++ z
        ∧ Event.released key ∉ z := by
  induction l generalizing k evs with
  | nil => exact ⟨rfl, by simp, [], by simp, by simp⟩
  | cons b l ih =>
    rw [List.foldl_cons]
    cases b
    · have hc : (false :: l).count false = l.count false + 1 := by simp
      rw [hc] at hl ⊢
      push_cast at hl ⊢
      have hk1 : ¬ k = 1 := by omega
      have hk0 : k > 0 := by omega
      have e : switchStep key (k, true, evs) false = (k - 1, true, evs) := by
        simp [switchStep, stepCount, stepLED, stepEvents, hk1, hk0]
      rw [e]
      obtain ⟨a, b, z, hz, hn⟩ := ih (k - 1) evs (by omega) (by omega)
      exact ⟨a, by omega, z, hz, hn⟩
    · have hc : (true :: l).count false = l.count false := by simp
      rw [hc] at hl ⊢
      have e : switchStep key (k, true, evs) true
          = (stepCount true k, true, evs ++ stepEvents true key k) := by
        simp [switchStep, stepLED]
      rw [e]
      have hs : k ≤ stepCount true k ∧ stepCount true k ≤ MAX_DEBOUNCE := by
        unfold stepCount MAX_DEBOUNCE at *
        simp only [if_true]
        split_ifs <;> omega
      obtain ⟨a, b, z, hz, hn⟩ := ih (stepCount true k) (evs ++ stepEvents true key k)
        hs.2 (by omega)
      refine ⟨a, by omega, stepEvents true key k ++ z, by rw [hz, List.append_assoc], ?_⟩
      intro hmem
      rcases List.mem_append.mp hmem with h | h
      · unfold stepEvents at h
        simp only [if_true] at h
        split_ifs at h <;> simp at h
      · exact hn h

/-- Three released samples in a row bring a counter in range to 0. -/
theorem switchRun_three_released (key : Nat) (l : List Bool) (v : Int × Bool × List Event)
    (h0 : 0 ≤ v.1) (h1 : v.1 ≤ MAX_DEBOUNCE) :
    ((l ++ [false, false, false]).foldl (switchStep key) v).1 = 0 := by
  rw [List.foldl_append]
  obtain ⟨a, b⟩ := switchRun_range key l v h0 h1
  generalize l.foldl (switchStep key) v = w at a b
  simp only [List.foldl_cons, List.foldl_nil, switchStep, stepCount, Bool.false_eq_true, if_false]
  unfold MAX_DEBOUNCE at b
  split_ifs <;> omega

/-- A switch with cells of its own whose LED entry is true keeps it true, and
no release line is printed for it, while the `scan` calls have taken fewer
released samples of it than its counter held. -/
theorem runScans_stays_lit (r c : Nat) (hc : c < NUM_BTN_COLS) (hown : ownCell r c)
    (rds : List (Nat → Level)) (s : State) (hrow : s.currentRow < NUM_BTN_ROWS)
    (h1 : s.debounce_count (dbIdx r c) ≤ MAX_DEBOUNCE)
    (hled : s.LED_buffer (ledIdx r c) = true)
    (hl : (((samplesOf r c s.currentRow rds).count false : Nat) : Int)
      < s.debounce_count (dbIdx r c)) :
    (runScans rds s).LED_buffer (ledIdx r c) = true
    ∧ Event.released (r * NUM_BTN_COLS + c) ∉ emittedBy rds s := by
  have hv := runScans_view r c hc hown rds s hrow
  have hview : switchView r c s = (s.debounce_count (dbIdx r c), true,
      keyEvents (r * NUM_BTN_COLS + c) s.serial) := by
    unfold switchView; rw [hled]
  rw [hview] at hv
  obtain ⟨a, _, z, hz, hn⟩ := switchRun_lit (r * NUM_BTN_COLS + c)
    (samplesOf r c s.currentRow rds) (s.debounce_count (dbIdx r c))
    (keyEvents (r * NUM_BTN_COLS + c) s.serial) h1 hl
  rw [← hv] at a hz
  refine ⟨a, ?_⟩
  have hk := keyEvents_emittedBy (r * NUM_BTN_COLS + c) rds s z hz
  intro hmem
  apply hn
  rw [← hk]
  unfold keyEvents
  rw [List.mem_filter]
  exact ⟨hmem, by simp⟩

/-- Once the `scan` calls have taken three released samples in a row of a
switch with cells of its own, its counter is 0. -/
theorem runScans_three_released (r c : Nat) (hc : c < NUM_BTN_COLS) (hown : ownCell r c)
    (rds : List (Nat → Level)) (s : State) (hrow : s.currentRow < NUM_BTN_ROWS)
    (h0 : 0 ≤ s.debounce_count (dbIdx r c)) (h1 : s.debounce_count (dbIdx r c) ≤ MAX_DEBOUNCE)
    (l : List Bool) (hs : samplesOf r c s.currentRow rds = l ++ [false, false, false]) :
    (runScans rds s).debounce_count (dbIdx r c) = 0 := by
  have hv := runScans_view r c hc hown rds s hrow
  rw [hs] at hv
  have := switchRun_three_released (r * NUM_BTN_COLS + c) l (switchView r c s) h0 h1
  rw [← hv] at this
  exact this

/-- The drive lines of a row other than the one being scanned keep their level
through the input phase of `scan` and at its return. -/
theorem scan_otherRow_lines (rd : Nat → Level) (s : State) (h : s.currentRow < NUM_BTN_ROWS)
    (r : Nat) (hr : r < NUM_BTN_ROWS) (hne : r ≠ s.currentRow) :
    (scan_input rd s).pinLevel (pinAt btnRowPins r) = s.pinLevel (pinAt btnRowPins r)
    ∧ (scan_input rd s).pinLevel (pinAt ledRowPins r) = s.pinLevel (pinAt ledRowPins r)
    ∧ (scan rd s).pinLevel (pinAt btnRowPins r) = s.pinLevel (pinAt btnRowPins r)
    ∧ (scan rd s).pinLevel (pinAt ledRowPins r) = s.pinLevel (pinAt ledRowPins r) := by
  rw [scan_input_pinLevel rd s _ (rowPins_notLedCol r hr).1,
    scan_input_pinLevel rd s _ (rowPins_notLedCol r hr).2,
    scan_pinLevel rd s _ (rowPins_notLedCol r hr).1,
    scan_pinLevel rd s _ (rowPins_notLedCol r hr).2]
  unfold NUM_BTN_ROWS at h hr
  have hc : s.currentRow = 0 ∨ s.currentRow = 1 := by omega
  rcases hc with hc | hc <;> rw [hc] at hne ⊢ <;> interval_cases r <;>
    first | exact absurd rfl hne | simp [pinAt, btnRowPins, ledRowPins]

/-- The drive lines of the row being scanned are LOW at the end of the input
phase of `scan`. -/
theorem scan_ownRow_lines (rd : Nat → Level) (s : State) (h : s.currentRow < NUM_BTN_ROWS) :
    (scan_input rd s).pinLevel (pinAt btnRowPins s.currentRow) = Level.LOW
    ∧ (scan_input rd s).pinLevel (pinAt ledRowPins s.currentRow) = Level.LOW := by
  have hnear := rowPins_notLedCol s.currentRow h
  rw [scan_input_pinLevel rd s _ hnear.1, scan_input_pinLevel rd s _ hnear.2]
  unfold NUM_BTN_ROWS at h
  have hc : s.currentRow = 0 ∨ s.currentRow = 1 := by omega
  rcases hc with hc | hc <;> rw [hc] <;> simp [pinAt, btnRowPins, ledRowPins]

/-- Transport from the isolated update to the program: what `feed` gives for the
samples that successive `scan` calls took of a switch with cells of its own is
what the calls leave in its counter and LED entry and print for its key. -/
theorem runScans_of_feed (r c : Nat) (hc : c < NUM_BTN_COLS) (hown : ownCell r c)
    (rds : List (Nat → Level)) (s : State) (hrow : s.currentRow < NUM_BTN_ROWS)
    (evs : List Event)
    (hser : (feed c (samplesOf r c s.currentRow rds) { s with currentRow := r }).serial
      = s.serial ++ evs)
    (hkey : ∀ e ∈ evs, e = Event.pressed (r * NUM_BTN_COLS + c)
      ∨ e = Event.released (r * NUM_BTN_COLS + c)) :
    (runScans rds s).debounce_count (dbIdx r c)
        = (feed c (samplesOf r c s.currentRow rds)
            { s with currentRow := r }).debounce_count (dbIdx r c)
    ∧ (runScans rds s).LED_buffer (ledIdx r c)
        = (feed c (samplesOf r c s.currentRow rds)
            { s with currentRow := r }).LED_buffer (ledIdx r c)
    ∧ keyEvents (r * NUM_BTN_COLS + c) (emittedBy rds s) = evs := by
  have hv := runScans_view_feed r c hc hown rds s hrow
  refine ⟨congrArg (fun v => v.1) hv, congrArg (fun v => v.2.1) hv, ?_⟩
  apply keyEvents_emittedBy
  refine (congrArg (fun v => v.2.2) hv).trans ?_
  show keyEvents _ (feed c _ { s with currentRow := r }).serial = _
  rw [hser, keyEvents_append]
  congr 1
  unfold keyEvents
  rw [List.filter_eq_self]
  intro e he
  rcases hkey e he with h | h <;> simp [h]

/-- On a switch with cells of its own, `n ≥ 3` pressed samples in a row taken by
successive `scan` calls from counter 0 print exactly one line for its key,
`Key pressed`, and leave the counter at `MAX_DEBOUNCE`. -/
theorem runScans_single_press (r c : Nat) (hc : c < NUM_BTN_COLS) (hown : ownCell r c)
    (rds : List (Nat → Level)) (s : State) (hrow : s.currentRow < NUM_BTN_ROWS)
    (h0 : s.debounce_count (dbIdx r c) = 0) (n : Nat) (hn : 3 ≤ n)
    (hs : samplesOf r c s.currentRow rds = List.replicate n true) :
    (runScans rds s).debounce_count (dbIdx r c) = MAX_DEBOUNCE
    ∧ keyEvents (r * NUM_BTN_COLS + c) (emittedBy rds s)
        = [Event.pressed (r * NUM_BTN_COLS + c)] := by
  obtain ⟨fc, fs⟩ := feed_pressed_run c n { s with currentRow := r } h0
  have hn3 : ¬ n < 3 := by omega
  rw [if_neg hn3] at fc fs
  rw [← hs] at fc fs
  obtain ⟨a, _, b⟩ := runScans_of_feed r c hc hown rds s hrow _ fs (by simp)
  exact ⟨a.trans fc, b⟩

/-- On a switch with cells of its own, `n ≥ 3` released samples in a row taken by
successive `scan` calls from counter `MAX_DEBOUNCE` print exactly one line for
its key, `Key released`, and leave the counter at 0. -/
theorem runScans_single_release (r c : Nat) (hc : c < NUM_BTN_COLS) (hown : ownCell r c)
    (rds : List (Nat → Level)) (s : State) (hrow : s.currentRow < NUM_BTN_ROWS)
    (h0 : s.debounce_count (dbIdx r c) = MAX_DEBOUNCE) (n : Nat) (hn : 3 ≤ n)
    (hs : samplesOf r c s.currentRow rds = List.replicate n false) :
    (runScans rds s).debounce_count (dbIdx r c) = 0
    ∧ keyEvents (r * NUM_BTN_COLS + c) (emittedBy rds s)
        = [Event.released (r * NUM_BTN_COLS + c)] := by
  obtain ⟨fc, fs⟩ := feed_released_run c n { s with currentRow := r } h0
  have hn3 : ¬ n < 3 := by omega
  rw [if_neg hn3] at fc fs
  rw [← hs] at fc fs
  obtain ⟨a, _, b⟩ := runScans_of_feed r c hc hown rds s hrow _ fs (by simp)
  exact ⟨a.trans fc, b⟩

/-- On a switch with cells of its own, samples in the direction of a saturated
counter, taken by successive `scan` calls, print nothing for its key and leave
its counter and LED entry as they were. -/
theorem runScans_saturated (r c : Nat) (hc : c < NUM_BTN_COLS) (hown : ownCell r c)
    (rds : List (Nat → Level)) (s : State) (hrow : s.currentRow < NUM_BTN_ROWS)
    (b : Bool) (n : Nat)
    (hsat : s.debounce_count (dbIdx r c) = if b = true then MAX_DEBOUNCE else 0)
    (hs : samplesOf r c s.currentRow rds = List.replicate n b) :
    (runScans rds s).debounce_count (dbIdx r c) = s.debounce_count (dbIdx r c)
    ∧ (runScans rds s).LED_buffer (ledIdx r c) = s.LED_buffer (ledIdx r c)
    ∧ keyEvents (r * NUM_BTN_COLS + c) (emittedBy rds s) = [] := by
  have hfix : ∀ m, feed c (List.replicate m b) { s with currentRow := r }
      = { s with currentRow := r } := by
    intro m
    induction m with
    | zero => rfl
    | succ k ih =>
      rw [List.replicate_succ', feed_snoc, ih]
      cases b
      · exact scan_debounce_false_zero c _ (by simpa using hsat)
      · exact scan_debounce_true_saturated c _ (by simpa using hsat)
  have fs : (feed c (samplesOf r c s.currentRow rds) { s with currentRow := r }).serial
      = s.serial ++ [] := by
    rw [hs, hfix n, List.append_nil]
  obtain ⟨a, l, e⟩ := runScans_of_feed r c hc hown rds s hrow _ fs (by simp)
  rw [hs, hfix n] at a l
  exact ⟨a, l, e⟩

/-- On a switch with cells of its own and a counter in range, three pressed
samples in a row taken by successive `scan` calls leave the counter at
`MAX_DEBOUNCE`, and three released samples in a row leave it at 0. -/
theorem runScans_worst_case (r c : Nat) (hc : c < NUM_BTN_COLS) (hown : ownCell r c)
    (rds : List (Nat → Level)) (s : State) (hrow : s.currentRow < NUM_BTN_ROWS)
    (h0 : 0 ≤ s.debounce_count (dbIdx r c)) (h1 : s.debounce_count (dbIdx r c) ≤ MAX_DEBOUNCE)
    (b : Bool) (hs : samplesOf r c s.currentRow rds = List.replicate 3 b) :
    (runScans rds s).debounce_count (dbIdx r c) = if b = true then MAX_DEBOUNCE else 0 := by
  have hv := congrArg (fun v => v.1) (runScans_view_feed r c hc hown rds s hrow)
  refine hv.trans ?_
  show (feed c _ { s with currentRow := r }).debounce_count (dbIdx r c) = _
  rw [hs]
  cases b
  · rw [feed_false_count c 3 { s with currentRow := r } h0 h1]
    unfold MAX_DEBOUNCE at h1
    simp only [Bool.false_eq_true, if_false]
    show max (s.debounce_count (dbIdx r c) - ((3 : Nat) : Int)) 0 = 0
    omega
  · rw [feed_true_count c 3 { s with currentRow := r } h0 h1]
    unfold MAX_DEBOUNCE at *
    simp only [if_true]
    show min (s.debounce_count (dbIdx r c) + ((3 : Nat) : Int)) 3 = 3
    omega

/-- The debounce update of one switch applied in isolation, with no other update
of its cell between the samples: from counter 0 the alternating samples `true, false, true, ...`
of any length `n` print no press line and keep the counter in `{0, 1}` (it
is `n % 2`); each released sample, which takes the counter from 1 back to 0,
prints one `Key released` line for the switch, `n / 2` lines in all. -/
theorem feed_alternating_noise (s : State) (j n : Nat)
    (h0 : s.debounce_count (dbIdx s.currentRow j) = 0) :
    (feed j (alternating n) s).serial
        = s.serial ++ List.replicate (n / 2)
            (Event.released (s.currentRow * NUM_BTN_COLS + j))
    ∧ (∀ key : Nat, Event.pressed key ∉ (feed j (alternating n) s).serial.drop s.serial.length)
    ∧ ((feed j (alternating n) s).debounce_count (dbIdx s.currentRow j) = 0
        ∨ (feed j (alternating n) s).debounce_count (dbIdx s.currentRow j) = 1)
    ∧ (feed j (alternating n) s).debounce_count (dbIdx s.currentRow j) < MAX_DEBOUNCE := by
  obtain ⟨hc, hs⟩ := feed_alternating j n s h0
  refine ⟨hs, ?_, ?_, ?_⟩
  · intro key hmem
    rw [hs, List.drop_left] at hmem
    have := List.eq_of_mem_replicate hmem
    cases this
  · rw [hc]
    rcases Nat.mod_two_eq_zero_or_one n with h | h <;> simp [h]
  · rw [hc]
    unfold MAX_DEBOUNCE
    omega

/-- The debounce update of one switch applied in isolation, with no other update
of its cell between the samples: from counter 0, `n ≥ MAX_DEBOUNCE` consecutive raw pressed samples of one
switch print exactly one line, `Key pressed` for that switch, and no release
line; nothing is printed during the first `MAX_DEBOUNCE - 1` samples, and the
line is printed by sample number `MAX_DEBOUNCE`, which takes the counter from
`MAX_DEBOUNCE - 1` to `MAX_DEBOUNCE`. -/
theorem feed_single_press (s : State) (j n : Nat)
    (h0 : s.debounce_count (dbIdx s.currentRow j) = 0)
    (hn : MAX_DEBOUNCE ≤ (n : Int)) :
    (feed j (List.replicate n true) s).serial
        = s.serial ++ [Event.pressed (s.currentRow * NUM_BTN_COLS + j)]
    ∧ (∀ m : Nat, (m : Int) < MAX_DEBOUNCE →
        (feed j (List.replicate m true) s).serial = s.serial)
    ∧ (feed j (List.replicate (MAX_DEBOUNCE.toNat - 1) true) s).debounce_count
        (dbIdx s.currentRow j) = MAX_DEBOUNCE - 1
    ∧ (feed j (List.replicate MAX_DEBOUNCE.toNat true) s).debounce_count
        (dbIdx s.currentRow j) = MAX_DEBOUNCE
    ∧ (feed j (List.replicate MAX_DEBOUNCE.toNat true) s).serial
        = s.serial ++ [Event.pressed (s.currentRow * NUM_BTN_COLS + j)] := by
  have hn3 : ¬ n < 3 := by unfold MAX_DEBOUNCE at hn; omega
  refine ⟨?_, ?_, ?_, ?_, ?_⟩
  · rw [(feed_pressed_run j n s h0).2, if_neg hn3]
  · intro m hm
    have hm3 : m < 3 := by unfold MAX_DEBOUNCE at hm; omega
    rw [(feed_pressed_run j m s h0).2, if_pos hm3, List.append_nil]
  · rw [(feed_pressed_run j _ s h0).1]
    simp [MAX_DEBOUNCE]
  · rw [(feed_pressed_run j _ s h0).1]
    simp [MAX_DEBOUNCE]
  · rw [(feed_pressed_run j _ s h0).2]
    simp [MAX_DEBOUNCE]

/-- The debounce update of one switch applied in isolation, with no other update
of its cell between the samples: from counter `MAX_DEBOUNCE`, `n ≥ MAX_DEBOUNCE` consecutive raw released
samples of one switch print exactly one line, `Key released` for that switch,
and no press line; nothing is printed during the first `MAX_DEBOUNCE - 1`
samples, and the line is printed by sample number `MAX_DEBOUNCE`, which takes
the counter from 1 to 0. -/
theorem feed_single_release (s : State) (j n : Nat)
    (h0 : s.debounce_count (dbIdx s.currentRow j) = MAX_DEBOUNCE)
    (hn : MAX_DEBOUNCE ≤ (n : Int)) :
    (feed j (List.replicate n false) s).serial
        = s.serial ++ [Event.released (s.currentRow * NUM_BTN_COLS + j)]
    ∧ (∀ m : Nat, (m : Int) < MAX_DEBOUNCE →
        (feed j (List.replicate m false) s).serial = s.serial)
    ∧ (feed j (List.replicate (MAX_DEBOUNCE.toNat - 1) false) s).debounce_count
        (dbIdx s.currentRow j) = 1
    ∧ (feed j (List.replicate MAX_DEBOUNCE.toNat false) s).debounce_count
        (dbIdx s.currentRow j) = 0
    ∧ (feed j (List.replicate MAX_DEBOUNCE.toNat false) s).serial
        = s.serial ++ [Event.released (s.currentRow * NUM_BTN_COLS + j)] := by
  have hn3 : ¬ n < 3 := by unfold MAX_DEBOUNCE at hn; omega
  refine ⟨?_, ?_, ?_, ?_, ?_⟩
  · rw [(feed_released_run j n s h0).2, if_neg hn3]
  · intro m hm
    have hm3 : m < 3 := by unfold MAX_DEBOUNCE at hm; omega
    rw [(feed_released_run j m s h0).2, if_pos hm3, List.append_nil]
  · rw [(feed_released_run j _ s h0).1]
    simp [MAX_DEBOUNCE]
  · rw [(feed_released_run j _ s h0).1]
    simp [MAX_DEBOUNCE]
  · rw [(feed_released_run j _ s h0).2]
    simp [MAX_DEBOUNCE]

/-- The debounce update of one switch applied in isolation, with no other update
of its cell between the samples: a raw pressed sample at counter `MAX_DEBOUNCE`, and a raw released
sample at counter 0, leave the whole state as it was (counter, LED buffer and
serial log included), whether applied directly or through a pin reading; so
does any number of further samples in the same direction. -/
theorem update_saturation_idempotent (s : State) (j n : Nat) :
    (s.debounce_count (dbIdx s.currentRow j) = MAX_DEBOUNCE →
        scan_debounce true j s = s
        ∧ (∀ rd : Nat → Level, rd (pinAt btnColPins j) = Level.LOW → scan_btnBody rd j s = s)
        ∧ feed j (List.replicate n true) s = s)
    ∧ (s.debounce_count (dbIdx s.currentRow j) = 0 →
        scan_debounce false j s = s
        ∧ (∀ rd : Nat → Level, rd (pinAt btnColPins j) ≠ Level.LOW → scan_btnBody rd j s = s)
        ∧ feed j (List.replicate n false) s = s) := by
  constructor
  · intro h
    refine ⟨scan_debounce_true_saturated j s h, ?_, ?_⟩
    · intro rd hrd
      simp only [scan_btnBody, hrd, decide_True]
      exact scan_debounce_true_saturated j s h
    · induction n with
      | zero => rfl
      | succ k ih => rw [List.replicate_succ', feed_snoc, ih, scan_debounce_true_saturated j s h]
  · intro h
    refine ⟨scan_debounce_false_zero j s h, ?_, ?_⟩
    · intro rd hrd
      simp only [scan_btnBody, hrd, decide_False]
      exact scan_debounce_false_zero j s h
    · induction n with
      | zero => rfl
      | succ k ih => rw [List.replicate_succ', feed_snoc, ih, scan_debounce_false_zero j s h]

/-- The debounce update of one switch applied in isolation, with no other update
of its cell between the samples: for every switch and every counter value `k` in `[0, MAX_DEBOUNCE]`,
`MAX_DEBOUNCE` consecutive raw pressed samples leave the counter at
`MAX_DEBOUNCE` and `MAX_DEBOUNCE` consecutive raw released samples leave it at
0; one pressed sample below `MAX_DEBOUNCE` moves it to `k + 1` and one released
sample above 0 moves it to `k - 1`, a single step and not a reset. -/
theorem feed_worst_case_response (s : State) (j : Nat) (k : Int)
    (hk : s.debounce_count (dbIdx s.currentRow j) = k)
    (h0 : 0 ≤ k) (h1 : k ≤ MAX_DEBOUNCE) :
    (feed j (List.replicate MAX_DEBOUNCE.toNat true) s).debounce_count (dbIdx s.currentRow j)
        = MAX_DEBOUNCE
    ∧ (feed j (List.replicate MAX_DEBOUNCE.toNat false) s).debounce_count
        (dbIdx s.currentRow j) = 0
    ∧ (k < MAX_DEBOUNCE →
        (scan_debounce true j s).debounce_count (dbIdx s.currentRow j) = k + 1)
    ∧ (0 < k →
        (scan_debounce false j s).debounce_count (dbIdx s.currentRow j) = k - 1) := by
  subst hk
  refine ⟨?_, ?_, ?_, ?_⟩
  · rw [feed_true_count j _ s h0 h1]
    have e : MAX_DEBOUNCE.toNat = 3 := rfl
    rw [e]
    unfold MAX_DEBOUNCE at *
    omega
  · rw [feed_false_count j _ s h0 h1]
    have e : MAX_DEBOUNCE.toNat = 3 := rfl
    rw [e]
    unfold MAX_DEBOUNCE at *
    omega
  · intro h
    rw [scan_debounce_true_count, if_pos h]
  · intro h
    rw [scan_debounce_false_count, if_pos h]

/-! ## Claims -/

/-- C1: for every switch position `(currentRow, j)` and counter value `k` in
`[0, MAX_DEBOUNCE]`, the loop body of `scan` on a column that reads LOW (a raw
pressed sample) leaves the counter at `k + 1` when `k < MAX_DEBOUNCE` and at `k`
when `k = MAX_DEBOUNCE`; it prints `Key pressed currentRow * NUM_BTN_COLS + j`
and sets the LED cell exactly when `k = MAX_DEBOUNCE - 1`, and otherwise prints
nothing and leaves the LED buffer alone. -/
theorem C1_pressed_sample (rd : Nat → Level) (s : State) (j : Nat) (k : Int)
    (hrd : rd (pinAt btnColPins j) = Level.LOW)
    (hk : s.debounce_count (dbIdx s.currentRow j) = k)
    (h0 : 0 ≤ k) (h1 : k ≤ MAX_DEBOUNCE) :
    (scan_btnBody rd j s).debounce_count (dbIdx s.currentRow j)
        = (if k < MAX_DEBOUNCE then k + 1 else k)
    ∧ ((scan_btnBody rd j s).serial
          = s.serial ++ [Event.pressed (s.currentRow * NUM_BTN_COLS + j)]
        ↔ k = MAX_DEBOUNCE - 1)
    ∧ (k = MAX_DEBOUNCE - 1 →
        (scan_btnBody rd j s).debounce_count (dbIdx s.currentRow j) = MAX_DEBOUNCE
        ∧ (scan_btnBody rd j s).LED_buffer (ledIdx s.currentRow j) = true)
    ∧ (k ≠ MAX_DEBOUNCE - 1 →
        (scan_btnBody rd j s).serial = s.serial
        ∧ (scan_btnBody rd j s).LED_buffer = s.LED_buffer) := by
  have hb : scan_btnBody rd j s = scan_debounce true j s := by
    simp [scan_btnBody, hrd]
  rw [hb]
  subst hk
  refine ⟨scan_debounce_true_count j s, ?_, ?_, ?_⟩
  · rw [scan_debounce_true_serial]
    split_ifs with h <;> simp [h]
  · intro h
    rw [scan_debounce_true_count, scan_debounce_true_LED]
    simp [h, MAX_DEBOUNCE]
  · intro h
    rw [scan_debounce_true_serial]
    refine ⟨by simp [h], ?_⟩
    funext n
    by_cases hn : n = ledIdx s.currentRow j
    · subst hn
      rw [scan_debounce_true_LED]
      simp [h]
    · exact scan_debounce_LED_other true j n s hn

/-- Witness of C1 on the third pressed sample of switch `(0, 0)`: the counter
stands at 2 and the sample prints `Key pressed 0`. -/
theorem C1_pressed_sample_witness :
    pressedTwice.debounce_count (dbIdx pressedTwice.currentRow 0) = 2
    ∧ (scan_btnBody allLow 0 pressedTwice).serial
        = pressedTwice.serial ++ [Event.pressed (pressedTwice.currentRow * NUM_BTN_COLS + 0)] :=
  ⟨by decide,
   (C1_pressed_sample allLow pressedTwice 0 2 (by decide) (by decide) (by decide)
      (by decide)).2.1.mpr (by decide)⟩

/-- C2: for every switch position `(currentRow, j)` and counter value `k` in
`[0, MAX_DEBOUNCE]`, the loop body of `scan` on a column that does not read LOW
(a raw released sample) leaves the counter at `k - 1` when `k > 0` and at `0`
when `k = 0`; it prints `Key released currentRow * NUM_BTN_COLS + j` and clears
the LED cell exactly when `k = 1`, and otherwise prints nothing and leaves the
LED buffer alone. -/
theorem C2_released_sample (rd : Nat → Level) (s : State) (j : Nat) (k : Int)
    (hrd : rd (pinAt btnColPins j) ≠ Level.LOW)
    (hk : s.debounce_count (dbIdx s.currentRow j) = k)
    (h0 : 0 ≤ k) (h1 : k ≤ MAX_DEBOUNCE) :
    (scan_btnBody rd j s).debounce_count (dbIdx s.currentRow j)
        = (if k > 0 then k - 1 else 0)
    ∧ ((scan_btnBody rd j s).serial
          = s.serial ++ [Event.released (s.currentRow * NUM_BTN_COLS + j)]
        ↔ k = 1)
    ∧ (k = 1 →
        (scan_btnBody rd j s).debounce_count (dbIdx s.currentRow j) = 0
        ∧ (scan_btnBody rd j s).LED_buffer (ledIdx s.currentRow j) = false)
    ∧ (k ≠ 1 →
        (scan_btnBody rd j s).serial = s.serial
        ∧ (scan_btnBody rd j s).LED_buffer = s.LED_buffer) := by
  have hb : scan_btnBody rd j s = scan_debounce false j s := by
    simp [scan_btnBody, hrd]
  rw [hb]
  subst hk
  refine ⟨?_, ?_, ?_, ?_⟩
  · rw [scan_debounce_false_count]
    split_ifs with h
    · rfl
    · omega
  · rw [scan_debounce_false_serial]
    split_ifs with h <;> simp [h]
  · intro h
    rw [scan_debounce_false_count, scan_debounce_false_LED]
    simp [h]
  · intro h
    rw [scan_debounce_false_serial]
    refine ⟨by simp [h], ?_⟩
    funext n
    by_cases hn : n = ledIdx s.currentRow j
    · subst hn
      rw [scan_debounce_false_LED]
      simp [h]
    · exact scan_debounce_LED_other false j n s hn

/-- Witness of C2 on a released sample of switch `(0, 0)` taken at counter 3:
the counter drops to 2. -/
theorem C2_released_sample_witness :
    pressedThrice.debounce_count (dbIdx pressedThrice.currentRow 0) = 3
    ∧ (scan_btnBody allHigh 0 pressedThrice).debounce_count (dbIdx pressedThrice.currentRow 0)
        = (if (3 : Int) > 0 then 3 - 1 else 0) :=
  ⟨by decide,
   (C2_released_sample allHigh pressedThrice 0 3 (by decide) (by decide) (by decide)
      (by decide)).1⟩

/-- C3: every debounce counter is in `[0, MAX_DEBOUNCE]` after `setup`, every
`scan` call keeps it so whatever the pins read, hence it holds after any number
of `scan` calls; and the counter of a fixed switch stays in `[0, MAX_DEBOUNCE]`
after every finite sequence of raw samples fed to it from the state left by
`setup`. -/
theorem C3_counter_range :
    (∀ hw : State, countersInRange (setup (boot hw)))
    ∧ (∀ (rd : Nat → Level) (s : State), countersInRange s → countersInRange (scan rd s))
    ∧ (∀ (hw : State) (rds : List (Nat → Level)),
        countersInRange (runScans rds (setup (boot hw))))
    ∧ (∀ (hw : State) (j : Nat) (samples : List Bool),
        0 ≤ (feed j samples (setup (boot hw))).debounce_count (dbIdx 0 j)
        ∧ (feed j samples (setup (boot hw))).debounce_count (dbIdx 0 j) ≤ MAX_DEBOUNCE) := by
  have hinit : ∀ hw : State, countersInRange (setup (boot hw)) := by
    intro hw n _
    rw [setup_boot_debounce_count]
    simp [MAX_DEBOUNCE]
  refine ⟨hinit, scan_countersInRange, ?_, ?_⟩
  · intro hw rds
    exact runScans_countersInRange rds _ (hinit hw)
  · intro hw j samples
    have h := feed_count_range j samples (setup (boot hw))
      (by rw [setup_boot_debounce_count])
      (by rw [setup_boot_debounce_count]; simp [MAX_DEBOUNCE])
    rw [setup_boot_currentRow] at h
    exact h

/-- Witness of C3: the counters are in range in the fresh state and stay so
over a scan in which every column reads LOW. -/
theorem C3_counter_range_witness :
    countersInRange freshState ∧ countersInRange (scan allLow freshState) :=
  ⟨by decide, C3_counter_range.2.1 allLow freshState (by decide)⟩

/-- C4, counterexample: on switch `(0, 0)` of the fresh state, whose counter is 0
and whose log is empty, the alternating samples `true, false` print
`Key released 0` on the second sample, both when the debounce update is applied
to them directly and when they are taken by successive `scan` calls.  And on
switch `(0, 2)` of the fresh state, whose counter is 0, the alternating samples
`true, false, true`, taken by successive `scan` calls while switch `(1, 0)` is
held, print `Key pressed 2` and leave the counter at 3. -/
theorem C4_alternating_counterexample :
    freshState.debounce_count (dbIdx freshState.currentRow 0) = 0
    ∧ freshState.serial = []
    ∧ alternating 2 = [true, false]
    ∧ (feed 0 (alternating 2) freshState).serial = [Event.released 0]
    ∧ samplesOf 0 0 freshState.currentRow (passes00 (alternating 2)) = alternating 2
    ∧ (runScans (passes00 (alternating 2)) freshState).serial = [Event.released 0]
    ∧ freshState.debounce_count (dbIdx 0 2) = 0
    ∧ samplesOf 0 2 freshState.currentRow
        [onlyLow 13, onlyLow 11, allHigh, onlyLow 11, onlyLow 13] = alternating 3
    ∧ keyEvents (0 * NUM_BTN_COLS + 2) (emittedBy
        [onlyLow 13, onlyLow 11, allHigh, onlyLow 11, onlyLow 13] freshState)
        = [Event.pressed 2]
    ∧ (runScans [onlyLow 13, onlyLow 11, allHigh, onlyLow 11, onlyLow 13]
        freshState).debounce_count (dbIdx 0 2) = 3 := by
  decide

/-- C4, amended: let switch `(r, c)` have cells of its own and counter 0, and let
successive `scan` calls, entered in any state with the cursor in range and with
any readings for the other switches, take the alternating samples
`true, false, true, ...` of it, `n` in all.  Then no `Key pressed` line is
printed for it, its counter ends at 0 or 1 (below `MAX_DEBOUNCE`), and the lines
printed for its key are one `Key released` per released sample, `n / 2` in
all. -/
theorem C4_alternating_noise (r c : Nat) (hc : c < NUM_BTN_COLS) (hown : ownCell r c)
    (s : State) (hrow : s.currentRow < NUM_BTN_ROWS)
    (h0 : s.debounce_count (dbIdx r c) = 0)
    (rds : List (Nat → Level)) (n : Nat)
    (hs : samplesOf r c s.currentRow rds = alternating n) :
    keyEvents (r * NUM_BTN_COLS + c) (emittedBy rds s)
        = List.replicate (n / 2) (Event.released (r * NUM_BTN_COLS + c))
    ∧ Event.pressed (r * NUM_BTN_COLS + c) ∉ emittedBy rds s
    ∧ ((runScans rds s).debounce_count (dbIdx r c) = 0
        ∨ (runScans rds s).debounce_count (dbIdx r c) = 1)
    ∧ (runScans rds s).debounce_count (dbIdx r c) < MAX_DEBOUNCE := by
  have hv := runScans_view_feed r c hc hown rds s hrow
  rw [hs] at hv
  obtain ⟨fc, fs⟩ := feed_alternating c n { s with currentRow := r } h0
  have hcount : (runScans rds s).debounce_count (dbIdx r c) = ((n % 2 : Nat) : Int) := by
    have := congrArg (fun v => v.1) hv
    exact this.trans fc
  have hser : keyEvents (r * NUM_BTN_COLS + c) (runScans rds s).serial
      = keyEvents (r * NUM_BTN_COLS + c) s.serial
        ++ List.replicate (n / 2) (Event.released (r * NUM_BTN_COLS + c)) := by
    have := congrArg (fun v => v.2.2) hv
    refine this.trans ?_
    show keyEvents _ (feed c (alternating n) { s with currentRow := r }).serial = _
    rw [fs, keyEvents_append]
    congr 1
    unfold keyEvents
    rw [List.filter_eq_self]
    intro e he
    rw [List.eq_of_mem_replicate he]
    simp
  have hk := keyEvents_emittedBy _ rds s _ hser
  refine ⟨hk, ?_, ?_, ?_⟩
  · intro hmem
    have : Event.pressed (r * NUM_BTN_COLS + c)
        ∈ keyEvents (r * NUM_BTN_COLS + c) (emittedBy rds s) := by
      unfold keyEvents
      rw [List.mem_filter]
      exact ⟨hmem, by simp⟩
    rw [hk] at this
    have := List.eq_of_mem_replicate this
    cases this
  · rw [hcount]
    rcases Nat.mod_two_eq_zero_or_one n with h | h <;> simp [h]
  · rw [hcount]
    unfold MAX_DEBOUNCE
    omega

/-- Witness of C4 (amended): six alternating samples of switch `(0, 0)`, taken by
twelve `scan` calls from the fresh state, print three `Key released 0` lines
for key 0. -/
theorem C4_alternating_noise_witness :
    samplesOf 0 0 freshState.currentRow (passes00 (alternating 6)) = alternating 6
    ∧ keyEvents (0 * NUM_BTN_COLS + 0) (emittedBy (passes00 (alternating 6)) freshState)
        = List.replicate (6 / 2) (Event.released (0 * NUM_BTN_COLS + 0)) :=
  ⟨by decide,
   (C4_alternating_noise 0 0 (by decide) (by decide) freshState (by decide) (by decide)
      (passes00 (alternating 6)) 6 (by decide)).1⟩

/-- C5, the code at a failing input: `debounce_count[1][0]` and
`debounce_count[0][2]` are one cell, and so are `LED_buffer[1][0]` and
`LED_buffer[0][2]`.  A scan of row 0 in which only column 2 (pin 13) reads LOW
moves row 1's counter of column 0 from 0 to 1; and after the scans
`onlyLow 13`, `onlyLow 11`, a third scan, again of row 0 with only column 2
LOW, turns row 1's LED entry of column 0 from false to true. -/
theorem C5_row_isolation_broken :
    dbIdx 1 0 = dbIdx 0 2 ∧ ledIdx 1 0 = ledIdx 0 2
    ∧ freshState.currentRow = 0
    ∧ freshState.debounce_count (dbIdx 1 0) = 0
    ∧ (scan (onlyLow 13) freshState).debounce_count (dbIdx 1 0) = 1
    ∧ (runScans [onlyLow 13, onlyLow 11] freshState).currentRow = 0
    ∧ (runScans [onlyLow 13, onlyLow 11] freshState).LED_buffer (ledIdx 1 0) = false
    ∧ (scan (onlyLow 13) (runScans [onlyLow 13, onlyLow 11] freshState)).LED_buffer
        (ledIdx 1 0) = true := by
  decide

/-- C6, the code at a failing input: after five scans in which every column
reads LOW, the fifth of them a scan of row 0 whose buffer row has column 2
set, the LED column line 2 (pin 7) is HIGH when `scan` returns; the blanking
loop has only written columns 0 and 1 (pins 5 and 6) LOW. -/
theorem C6_led_column_left_high :
    (runScans [allLow, allLow, allLow, allLow] freshState).currentRow = 0
    ∧ (runScans [allLow, allLow, allLow, allLow] freshState).LED_buffer (ledIdx 0 2) = true
    ∧ pinAt ledColPins 2 = 7
    ∧ (scan allLow (runScans [allLow, allLow, allLow, allLow] freshState)).pinLevel
        (pinAt ledColPins 2) = Level.HIGH
    ∧ (scan allLow (runScans [allLow, allLow, allLow, allLow] freshState)).pinLevel
        (pinAt ledColPins 0) = Level.LOW
    ∧ (scan allLow (runScans [allLow, allLow, allLow, allLow] freshState)).pinLevel
        (pinAt ledColPins 1) = Level.LOW := by
  decide

/-- C7, counterexample: switch `(0, 0)` receives the samples
`true, true, true, false, false, true, false, false` on consecutive passes over
row 0 from the fresh state.  After the third sample `LED_buffer[0][0]` is true;
the last sample prints `Key released 0` and leaves `LED_buffer[0][0]` false,
although the samples contain no three consecutive released ones. -/
theorem C7_led_cleared_early :
    (runScans (passes00 [true, true, true]) freshState).LED_buffer (ledIdx 0 0) = true
    ∧ ¬ List.IsInfix [false, false, false]
        [true, true, true, false, false, true, false, false]
    ∧ (runScans (passes00 [true, true, true, false, false, true, false]) freshState).currentRow
        = 0
    ∧ keyEvents 0 (emitted allHigh
        (runScans (passes00 [true, true, true, false, false, true, false]) freshState))
        = [Event.released 0]
    ∧ (runScans (passes00 [true, true, true, false, false, true, false, false])
        freshState).LED_buffer (ledIdx 0 0) = false := by
  decide

/-- C7, amended: starting from the state produced by `setup`, let switch
`(0, 0)` read pressed on three consecutive passes over row 0 (`a1 a2 a3`), passes
over row 1 (`b1 b2`) interleaved and all other readings arbitrary.  No event for
key 0 is printed on the first two passes; the third prints `Key pressed 0` and
sets `LED_buffer[0][0]`.  From then on, whatever `scan` calls follow,
`LED_buffer[0][0]` stays true and no `Key released 0` is printed while they have
taken fewer than three released samples of the switch (so also while it stays
pressed), and once they have taken three released samples in a row the counter
is 0 and `LED_buffer[0][0]` is false.  When the three passes over row 0 that
follow the press (`a4 a5 a6`, with row-1 passes `b3 b4 b5`) all read released,
the entry stays true over the first two, which print nothing for key 0, and the
third prints `Key released 0` and clears it.  No pass over row 1 prints an event
for key 0. -/
theorem C7_end_to_end (hw : State) (a1 b1 a2 b2 a3 b3 a4 b4 a5 b5 a6 : Nat → Level)
    (p1 : a1 (pinAt btnColPins 0) = Level.LOW)
    (p2 : a2 (pinAt btnColPins 0) = Level.LOW)
    (p3 : a3 (pinAt btnColPins 0) = Level.LOW)
    (r4 : a4 (pinAt btnColPins 0) ≠ Level.LOW)
    (r5 : a5 (pinAt btnColPins 0) ≠ Level.LOW)
    (r6 : a6 (pinAt btnColPins 0) ≠ Level.LOW) :
    keyEvents 0 (emitted a1 (setup (boot hw))) = []
    ∧ keyEvents 0 (emitted b1 (runScans [a1] (setup (boot hw)))) = []
    ∧ keyEvents 0 (emitted a2 (runScans [a1, b1] (setup (boot hw)))) = []
    ∧ keyEvents 0 (emitted b2 (runScans [a1, b1, a2] (setup (boot hw)))) = []
    ∧ (runScans [a1, b1, a2, b2] (setup (boot hw))).LED_buffer (ledIdx 0 0) = false
    ∧ keyEvents 0 (emitted a3 (runScans [a1, b1, a2, b2] (setup (boot hw))))
        = [Event.pressed 0]
    ∧ (runScans [a1, b1, a2, b2, a3] (setup (boot hw))).LED_buffer (ledIdx 0 0) = true
    ∧ keyEvents 0 (emitted b3 (runScans [a1, b1, a2, b2, a3] (setup (boot hw)))) = []
    ∧ (runScans [a1, b1, a2, b2, a3, b3] (setup (boot hw))).LED_buffer (ledIdx 0 0) = true
    ∧ keyEvents 0 (emitted a4 (runScans [a1, b1, a2, b2, a3, b3] (setup (boot hw)))) = []
    ∧ (runScans [a1, b1, a2, b2, a3, b3, a4] (setup (boot hw))).LED_buffer (ledIdx 0 0) = true
    ∧ keyEvents 0 (emitted b4 (runScans [a1, b1, a2, b2, a3, b3, a4] (setup (boot hw)))) = []
    ∧ (runScans [a1, b1, a2, b2, a3, b3, a4, b4] (setup (boot hw))).LED_buffer (ledIdx 0 0)
        = true
    ∧ keyEvents 0 (emitted a5 (runScans [a1, b1, a2, b2, a3, b3, a4, b4] (setup (boot hw))))
        = []
    ∧ (runScans [a1, b1, a2, b2, a3, b3, a4, b4, a5] (setup (boot hw))).LED_buffer
        (ledIdx 0 0) = true
    ∧ keyEvents 0 (emitted b5
        (runScans [a1, b1, a2, b2, a3, b3, a4, b4, a5] (setup (boot hw)))) = []
    ∧ (runScans [a1, b1, a2, b2, a3, b3, a4, b4, a5, b5] (setup (boot hw))).LED_buffer
        (ledIdx 0 0) = true
    ∧ keyEvents 0 (emitted a6
        (runScans [a1, b1, a2, b2, a3, b3, a4, b4, a5, b5] (setup (boot hw))))
        = [Event.released 0]
    ∧ (runScans [a1, b1, a2, b2, a3, b3, a4, b4, a5, b5, a6] (setup (boot hw))).LED_buffer
        (ledIdx 0 0) = false
    ∧ (∀ rds : List (Nat → Level),
        (samplesOf 0 0 (runScans [a1, b1, a2, b2, a3] (setup (boot hw))).currentRow rds).count
            false < 3 →
        (runScans rds (runScans [a1, b1, a2, b2, a3] (setup (boot hw)))).LED_buffer
            (ledIdx 0 0) = true
        ∧ Event.released 0 ∉ emittedBy rds (runScans [a1, b1, a2, b2, a3] (setup (boot hw))))
    ∧ (∀ (rds : List (Nat → Level)) (l : List Bool),
        samplesOf 0 0 (runScans [a1, b1, a2, b2, a3] (setup (boot hw))).currentRow rds
            = l ++ [false, false, false] →
        (runScans rds (runScans [a1, b1, a2, b2, a3] (setup (boot hw)))).debounce_count
            (dbIdx 0 0) = 0
        ∧ (runScans rds (runScans [a1, b1, a2, b2, a3] (setup (boot hw)))).LED_buffer
            (ledIdx 0 0) = false) := by
  have q1 : rawPressed a1 0 = true := by simp [rawPressed, p1]
  have q2 : rawPressed a2 0 = true := by simp [rawPressed, p2]
  have q3 : rawPressed a3 0 = true := by simp [rawPressed, p3]
  have q4 : rawPressed a4 0 = false := by simp [rawPressed, r4]
  have q5 : rawPressed a5 0 = false := by simp [rawPressed, r5]
  have q6 : rawPressed a6 0 = false := by simp [rawPressed, r6]
  have h0 : switch00 (setup (boot hw)) 0 0 false :=
    ⟨setup_boot_currentRow hw, setup_boot_debounce_count hw _, setup_boot_LED_buffer hw _⟩
  have s1 := scan_row0_switch00 a1 _ _ _ h0
  have s2 := scan_row1_switch00 b1 _ _ _ s1.1
  have s3 := scan_row0_switch00 a2 _ _ _ s2.1
  have s4 := scan_row1_switch00 b2 _ _ _ s3.1
  have s5 := scan_row0_switch00 a3 _ _ _ s4.1
  have s6 := scan_row1_switch00 b3 _ _ _ s5.1
  have s7 := scan_row0_switch00 a4 _ _ _ s6.1
  have s8 := scan_row1_switch00 b4 _ _ _ s7.1
  have s9 := scan_row0_switch00 a5 _ _ _ s8.1
  have s10 := scan_row1_switch00 b5 _ _ _ s9.1
  have s11 := scan_row0_switch00 a6 _ _ _ s10.1
  rw [q1] at s1 s2 s3 s4 s5 s6 s7 s8 s9 s10 s11
  rw [q2] at s3 s4 s5 s6 s7 s8 s9 s10 s11
  rw [q3] at s5 s6 s7 s8 s9 s10 s11
  rw [q4] at s7 s8 s9 s10 s11
  rw [q5] at s9 s10 s11
  rw [q6] at s11
  have e3 : stepCount true (stepCount true (stepCount true 0)) = 3 := by decide
  have l3 : stepLED true (stepCount true (stepCount true 0))
      (stepLED true (stepCount true 0) (stepLED true 0 false)) = true := by decide
  have hS : runScans [a1, b1, a2, b2, a3] (setup (boot hw))
      = scan a3 (scan b2 (scan a2 (scan b1 (scan a1 (setup (boot hw)))))) := rfl
  have hrow3 : (runScans [a1, b1, a2, b2, a3] (setup (boot hw))).currentRow = 1 := by
    rw [hS]; exact s5.1.1
  have hcount3 : (runScans [a1, b1, a2, b2, a3] (setup (boot hw))).debounce_count (dbIdx 0 0)
      = 3 := by
    rw [hS, s5.1.2.1, e3]
  have hled3 : (runScans [a1, b1, a2, b2, a3] (setup (boot hw))).LED_buffer (ledIdx 0 0)
      = true := by
    rw [hS, s5.1.2.2, l3]
  have g1 : ∀ rds : List (Nat → Level),
      (samplesOf 0 0 (runScans [a1, b1, a2, b2, a3] (setup (boot hw))).currentRow rds).count
          false < 3 →
      (runScans rds (runScans [a1, b1, a2, b2, a3] (setup (boot hw)))).LED_buffer
          (ledIdx 0 0) = true
      ∧ Event.released 0 ∉ emittedBy rds (runScans [a1, b1, a2, b2, a3] (setup (boot hw))) := by
    intro rds hlt
    exact runScans_stays_lit 0 0 (by decide) (by decide) rds _ (by rw [hrow3]; decide)
      (by rw [hcount3]; decide) hled3 (by rw [hcount3]; exact_mod_cast hlt)
  have g2 : ∀ (rds : List (Nat → Level)) (l : List Bool),
      samplesOf 0 0 (runScans [a1, b1, a2, b2, a3] (setup (boot hw))).currentRow rds
          = l ++ [false, false, false] →
      (runScans rds (runScans [a1, b1, a2, b2, a3] (setup (boot hw)))).debounce_count
          (dbIdx 0 0) = 0
      ∧ (runScans rds (runScans [a1, b1, a2, b2, a3] (setup (boot hw)))).LED_buffer
          (ledIdx 0 0) = false := by
    intro rds l hl
    have hz := runScans_three_released 0 0 (by decide) (by decide) rds _
      (by rw [hrow3]; decide) (by rw [hcount3]; decide) (by rw [hcount3]; decide) l hl
    refine ⟨hz, ?_⟩
    have hm := runScans_ledMirrorsCounters ([a1, b1, a2, b2, a3] ++ rds) (setup (boot hw))
      (setup_boot_countersInRange hw) (setup_boot_ledMirrorsCounters hw)
    rw [runScans_append] at hm
    exact (hm 0 (by decide) 0 (by decide)).2 hz
  simp only [runScans, List.foldl_cons, List.foldl_nil]
  refine ⟨?_, ?_, ?_, ?_, ?_, ?_, ?_, ?_, ?_, ?_, ?_, ?_, ?_, ?_, ?_, ?_, ?_, ?_, ?_, g1, g2⟩
  · rw [s1.2]; decide
  · exact s2.2
  · rw [s3.2]; decide
  · exact s4.2
  · rw [s4.1.2.2]; decide
  · rw [s5.2]; decide
  · rw [s5.1.2.2]; decide
  · exact s6.2
  · rw [s6.1.2.2]; decide
  · rw [s7.2]; decide
  · rw [s7.1.2.2]; decide
  · exact s8.2
  · rw [s8.1.2.2]; decide
  · rw [s9.2]; decide
  · rw [s9.1.2.2]; decide
  · exact s10.2
  · rw [s10.1.2.2]; decide
  · rw [s11.2]; decide
  · rw [s11.1.2.2]; decide

/-- Witness of C7 (amended): with pin 11 LOW on the first three passes over
row 0 and every pin HIGH on all other passes, the third pass over row 0 prints
`Key pressed 0`. -/
theorem C7_end_to_end_witness :
    keyEvents 0 (emitted (onlyLow 11)
      (runScans [onlyLow 11, allHigh, onlyLow 11, allHigh] (setup (boot blankBoard))))
      = [Event.pressed 0] :=
  (C7_end_to_end blankBoard (onlyLow 11) allHigh (onlyLow 11) allHigh (onlyLow 11) allHigh
    allHigh allHigh allHigh allHigh allHigh
    (by decide) (by decide) (by decide) (by decide) (by decide) (by decide)).2.2.2.2.2.1

/-- C8, the code at a failing input: switch `(0, 2)` of the fresh state, whose
counter is 0, reads pressed on six consecutive passes over row 0 while every
other switch reads released.  No `Key pressed 2` is printed; the six lines
printed are `Key released 4`, and the counter is back at 0: its cell is also the
cell of switch `(1, 0)`, whose released sample on each pass over row 1 undoes
the increment. -/
theorem C8_shared_cell_never_pressed :
    dbIdx 0 2 = dbIdx 1 0
    ∧ freshState.debounce_count (dbIdx 0 2) = 0
    ∧ samplesOf 0 2 freshState.currentRow (hold02 6) = List.replicate 6 true
    ∧ keyEvents (0 * NUM_BTN_COLS + 2) (emittedBy (hold02 6) freshState) = []
    ∧ emittedBy (hold02 6) freshState = List.replicate 6 (Event.released 4)
    ∧ (runScans (hold02 6) freshState).debounce_count (dbIdx 0 2) = 0 := by
  decide

/-- C9, the code at a failing input: in `bothHeld` the counter of switch `(0, 2)`
is at `MAX_DEBOUNCE`.  When it then reads released on four consecutive passes
over row 0 while switch `(1, 0)` stays pressed, no `Key released 2` is printed
and the counter ends at 2; when every switch reads released instead,
`Key released 2` is printed by the second released sample, not the third. -/
theorem C9_shared_cell_release :
    bothHeld.currentRow = 0
    ∧ bothHeld.debounce_count (dbIdx 0 2) = MAX_DEBOUNCE
    ∧ samplesOf 0 2 bothHeld.currentRow
        [allHigh, onlyLow 11, allHigh, onlyLow 11, allHigh, onlyLow 11, allHigh]
        = List.replicate 4 false
    ∧ keyEvents (0 * NUM_BTN_COLS + 2) (emittedBy
        [allHigh, onlyLow 11, allHigh, onlyLow 11, allHigh, onlyLow 11, allHigh] bothHeld) = []
    ∧ (runScans [allHigh, onlyLow 11, allHigh, onlyLow 11, allHigh, onlyLow 11, allHigh]
        bothHeld).debounce_count (dbIdx 0 2) = 2
    ∧ samplesOf 0 2 bothHeld.currentRow [allHigh, allHigh, allHigh] = List.replicate 2 false
    ∧ keyEvents (0 * NUM_BTN_COLS + 2) (emittedBy [allHigh, allHigh, allHigh] bothHeld)
        = [Event.released 2] := by
  decide

/-- C10, the code at a failing input: in `bothHeld` the counter of switch `(0, 2)`
is at `MAX_DEBOUNCE`; it keeps reading pressed on three more passes over row 0
while every other switch reads released, and `Key pressed 2` is printed twice
more.  And switch `(1, 0)` of the fresh state, at counter 0 and reading released
on six passes over row 1 while switch `(0, 2)` is held, has `Key released 4`
printed six times. -/
theorem C10_shared_cell_repeats :
    bothHeld.currentRow = 0
    ∧ bothHeld.debounce_count (dbIdx 0 2) = MAX_DEBOUNCE
    ∧ samplesOf 0 2 bothHeld.currentRow (hold02 3) = List.replicate 3 true
    ∧ keyEvents (0 * NUM_BTN_COLS + 2) (emittedBy (hold02 3) bothHeld)
        = [Event.pressed 2, Event.pressed 2]
    ∧ freshState.debounce_count (dbIdx 1 0) = 0
    ∧ samplesOf 1 0 freshState.currentRow (hold02 6) = List.replicate 6 false
    ∧ keyEvents (1 * NUM_BTN_COLS + 0) (emittedBy (hold02 6) freshState)
        = List.replicate 6 (Event.released 4) := by
  decide

/-- C11: in a `scan` call on row `currentRow`, for every switch column
`c < NUM_BTN_COLS`: when the column reads LOW and its counter reaches
`MAX_DEBOUNCE` (it was `MAX_DEBOUNCE - 1`), `LED_buffer[currentRow][c]` is true
afterwards and the call prints exactly `Key pressed currentRow * NUM_BTN_COLS + c`
for that key; when the column does not read LOW and its counter reaches 0 (it
was 1), `LED_buffer[currentRow][c]` is false afterwards and the call prints
exactly `Key released currentRow * NUM_BTN_COLS + c` for that key; in every
other case the call prints nothing for that key and leaves
`LED_buffer[currentRow][c]` as it was. -/
theorem C11_input_phase (rd : Nat → Level) (s : State) (c : Nat) (hc : c < NUM_BTN_COLS) :
    (rd (pinAt btnColPins c) = Level.LOW
        ∧ s.debounce_count (dbIdx s.currentRow c) = MAX_DEBOUNCE - 1 →
      (scan rd s).debounce_count (dbIdx s.currentRow c) = MAX_DEBOUNCE
      ∧ (scan rd s).LED_buffer (ledIdx s.currentRow c) = true
      ∧ keyEvents (s.currentRow * NUM_BTN_COLS + c) (emitted rd s)
          = [Event.pressed (s.currentRow * NUM_BTN_COLS + c)])
    ∧ (rd (pinAt btnColPins c) ≠ Level.LOW
        ∧ s.debounce_count (dbIdx s.currentRow c) = 1 →
      (scan rd s).debounce_count (dbIdx s.currentRow c) = 0
      ∧ (scan rd s).LED_buffer (ledIdx s.currentRow c) = false
      ∧ keyEvents (s.currentRow * NUM_BTN_COLS + c) (emitted rd s)
          = [Event.released (s.currentRow * NUM_BTN_COLS + c)])
    ∧ (¬ (rd (pinAt btnColPins c) = Level.LOW
          ∧ s.debounce_count (dbIdx s.currentRow c) = MAX_DEBOUNCE - 1)
        ∧ ¬ (rd (pinAt btnColPins c) ≠ Level.LOW
          ∧ s.debounce_count (dbIdx s.currentRow c) = 1) →
      (scan rd s).LED_buffer (ledIdx s.currentRow c) = s.LED_buffer (ledIdx s.currentRow c)
      ∧ keyEvents (s.currentRow * NUM_BTN_COLS + c) (emitted rd s) = []) := by
  rw [keyEvents_emitted rd s c hc, scan_count_switch rd s c hc, scan_LED_switch rd s c hc]
  unfold rawPressed stepCount stepEvents stepLED MAX_DEBOUNCE
  refine ⟨?_, ?_, ?_⟩
  · rintro ⟨h1, h2⟩
    simp [h1, h2]
  · rintro ⟨h1, h2⟩
    simp [h1, h2]
  · rintro ⟨h1, h2⟩
    by_cases hl : rd (pinAt btnColPins c) = Level.LOW
    · have : ¬ s.debounce_count (dbIdx s.currentRow c) = 2 := fun h => h1 ⟨hl, by rw [h]; rfl⟩
      simp [hl, this]
    · have : ¬ s.debounce_count (dbIdx s.currentRow c) = 1 := fun h => h2 ⟨hl, h⟩
      simp [hl, this]

/-- Witness of C11: with switch `(0, 1)` at counter 2, a scan of row 0 in which
only column 1 (pin 12) reads LOW prints exactly `Key pressed 1` for key 1. -/
theorem C11_input_phase_witness :
    col1PressedTwice.debounce_count (dbIdx col1PressedTwice.currentRow 1) = MAX_DEBOUNCE - 1
    ∧ keyEvents (col1PressedTwice.currentRow * NUM_BTN_COLS + 1)
        (emitted (onlyLow 12) col1PressedTwice)
        = [Event.pressed (col1PressedTwice.currentRow * NUM_BTN_COLS + 1)] :=
  ⟨by decide,
   ((C11_input_phase (onlyLow 12) col1PressedTwice 1 (by decide)).1
      ⟨by decide, by decide⟩).2.2⟩

/-- C12, the code at a failing input: with every subscript checked against the
declared size of its dimension, `scan` fails on every state and every reading.
In the fresh state the LED loop and the switch loop pass columns 0 and 1 and
fail at column 2, where `LED_buffer[currentRow][2]` and
`debounce_count[currentRow][2]` subscript a dimension declared with
`NUM_LED_ROWS = NUM_BTN_ROWS = 2` entries; the offsets used stay inside the
8 cells of each array, and the four pin tables are subscripted inside their
declared sizes. -/
theorem C12_subscript_out_of_range :
    (∀ (rd : Nat → Level) (s : State), scanChecked rd s = none)
    ∧ (scanChecked allHigh freshState).isNone = true
    ∧ (forUpToM 2 scanChecked_ledBody freshState).isSome = true
    ∧ (forUpToM 3 scanChecked_ledBody freshState).isNone = true
    ∧ (forUpToM 2 (scanChecked_btnBody allLow) freshState).isSome = true
    ∧ (forUpToM 3 (scanChecked_btnBody allLow) freshState).isNone = true
    ∧ 2 < NUM_LED_COLS ∧ 2 < NUM_BTN_COLS
    ∧ (LED_buffer_at freshState freshState.currentRow 2).isNone = true
    ∧ (debounce_count_at freshState freshState.currentRow 2).isNone = true
    ∧ (∀ r, r < NUM_BTN_ROWS → ∀ j, j < NUM_BTN_COLS →
        dbIdx r j < NUM_BTN_COLS * NUM_BTN_ROWS ∧ ledIdx r j < NUM_LED_COLS * NUM_LED_ROWS)
    ∧ (∀ r, r < NUM_BTN_ROWS →
        (btnRowPins.get? r).isSome = true ∧ (ledRowPins.get? r).isSome = true)
    ∧ (∀ j, j < NUM_BTN_COLS →
        (btnColPins.get? j).isSome = true ∧ (ledColPins.get? j).isSome = true) := by
  refine ⟨scanChecked_none, by decide, by decide, by decide, by decide, by decide,
    by decide, by decide, by decide, by decide, by decide, by decide, by decide⟩

/-- C13: `currentRow` is 0 after `setup`; a `scan` call entered with
`currentRow < NUM_BTN_ROWS` leaves `(currentRow + 1) % NUM_BTN_ROWS`, again below
`NUM_BTN_ROWS`; so after any number of `scan` calls `currentRow` is below
`NUM_BTN_ROWS` (it is the number of calls modulo `NUM_BTN_ROWS`).  The call does
the work of row `currentRow` and of no other: it drives that row's two lines LOW
for its input phase and leaves the lines of every other row at their level; for
each column `c < NUM_BTN_COLS` it applies one debounce update, with the reading
of pin `btnColPins[c]`, to `debounce_count[currentRow][c]` and
`LED_buffer[currentRow][c]`; the lines it prints are exactly those of these
updates, in column order, each with a key index of row `currentRow`; and it
changes no counter or LED cell outside the cells `[currentRow][0 .. NUM_BTN_COLS - 1]`,
which lie at the offsets `dbIdx currentRow 0` up to `dbIdx currentRow NUM_BTN_COLS`. -/
theorem C13_cursor_advance (rd : Nat → Level) (s : State)
    (h : s.currentRow < NUM_BTN_ROWS) :
    (scan rd s).currentRow = (s.currentRow + 1) % NUM_BTN_ROWS
    ∧ (scan rd s).currentRow < NUM_BTN_ROWS
    ∧ (∀ hw : State, (setup (boot hw)).currentRow = 0)
    ∧ (∀ (hw : State) (rds : List (Nat → Level)),
        (runScans rds (setup (boot hw))).currentRow < NUM_BTN_ROWS
        ∧ (runScans rds (setup (boot hw))).currentRow = rds.length % NUM_BTN_ROWS)
    ∧ (∀ e ∈ emitted rd s, e.key / NUM_BTN_COLS = s.currentRow)
    ∧ (∀ n, ¬ (dbIdx s.currentRow 0 ≤ n ∧ n < dbIdx s.currentRow NUM_BTN_COLS) →
        (scan rd s).debounce_count n = s.debounce_count n)
    ∧ (∀ n, ¬ (ledIdx s.currentRow 0 ≤ n ∧ n < ledIdx s.currentRow NUM_BTN_COLS) →
        (scan rd s).LED_buffer n = s.LED_buffer n)
    ∧ (∀ c, c < NUM_BTN_COLS →
        (scan rd s).debounce_count (dbIdx s.currentRow c)
          = (if rd (pinAt btnColPins c) = Level.LOW then
              (if s.debounce_count (dbIdx s.currentRow c) < MAX_DEBOUNCE
                then s.debounce_count (dbIdx s.currentRow c) + 1
                else s.debounce_count (dbIdx s.currentRow c))
            else
              (if s.debounce_count (dbIdx s.currentRow c) > 0
                then s.debounce_count (dbIdx s.currentRow c) - 1
                else s.debounce_count (dbIdx s.currentRow c))))
    ∧ (∀ c, c < NUM_BTN_COLS →
        (scan rd s).LED_buffer (ledIdx s.currentRow c)
          = (if rd (pinAt btnColPins c) = Level.LOW then
              (if s.debounce_count (dbIdx s.currentRow c) = MAX_DEBOUNCE - 1 then true
                else s.LED_buffer (ledIdx s.currentRow c))
            else
              (if s.debounce_count (dbIdx s.currentRow c) = 1 then false
                else s.LED_buffer (ledIdx s.currentRow c))))
    ∧ emitted rd s = (List.range NUM_BTN_COLS).flatMap (fun c =>
        if rd (pinAt btnColPins c) = Level.LOW then
          (if s.debounce_count (dbIdx s.currentRow c) = MAX_DEBOUNCE - 1
            then [Event.pressed (s.currentRow * NUM_BTN_COLS + c)] else [])
        else
          (if s.debounce_count (dbIdx s.currentRow c) = 1
            then [Event.released (s.currentRow * NUM_BTN_COLS + c)] else []))
    ∧ ((scan_input rd s).pinLevel (pinAt btnRowPins s.currentRow) = Level.LOW
      ∧ (scan_input rd s).pinLevel (pinAt ledRowPins s.currentRow) = Level.LOW)
    ∧ (∀ r, r < NUM_BTN_ROWS → r ≠ s.currentRow →
        (scan_input rd s).pinLevel (pinAt btnRowPins r) = s.pinLevel (pinAt btnRowPins r)
        ∧ (scan_input rd s).pinLevel (pinAt ledRowPins r) = s.pinLevel (pinAt ledRowPins r)
        ∧ (scan rd s).pinLevel (pinAt btnRowPins r) = s.pinLevel (pinAt btnRowPins r)
        ∧ (scan rd s).pinLevel (pinAt ledRowPins r) = s.pinLevel (pinAt ledRowPins r)) := by
  refine ⟨?_, ?_, setup_boot_currentRow, ?_, ?_, ?_, ?_, ?_, ?_, ?_,
    scan_ownRow_lines rd s h, scan_otherRow_lines rd s h⟩
  · rw [scan_currentRow, nextRow_mod _ h]
  · rw [scan_currentRow]; exact nextRow_lt _
  · intro hw rds
    have h0 : (setup (boot hw)).currentRow < NUM_BTN_ROWS := by
      rw [setup_boot_currentRow]; decide
    have := runScans_currentRow rds (setup (boot hw)) h0
    rw [setup_boot_currentRow, Nat.zero_add] at this
    exact this
  · intro e he
    obtain ⟨j, hj, hkey⟩ := emitted_key rd s e he
    unfold NUM_BTN_COLS at *
    omega
  · intro n hn
    rw [scan_debounce_count, btnLoop_count, if_neg hn]
  · intro n hn
    rw [scan_LED_buffer, btnLoop_LED, if_neg hn]
  · intro c hc
    rw [scan_count_switch rd s c hc]
    unfold stepCount rawPressed
    by_cases hl : rd (pinAt btnColPins c) = Level.LOW <;> simp [hl]
  · intro c hc
    rw [scan_LED_switch rd s c hc]
    unfold stepLED rawPressed
    by_cases hl : rd (pinAt btnColPins c) = Level.LOW <;> simp [hl]
  · rw [emitted_eq]
    congr 1
    funext c
    unfold stepEvents rawPressed
    by_cases hl : rd (pinAt btnColPins c) = Level.LOW <;> simp [hl]

/-- Witness of C13: the first `scan` call on the fresh state moves `currentRow`
from 0 to 1. -/
theorem C13_cursor_advance_witness :
    freshState.currentRow < NUM_BTN_ROWS
    ∧ (scan allHigh freshState).currentRow = (freshState.currentRow + 1) % NUM_BTN_ROWS :=
  ⟨by decide, (C13_cursor_advance allHigh freshState (by decide)).1⟩

/-- C14, the code at a failing input: after five scans in which every column
reads LOW, `currentRow` is 1 and `LED_buffer[1][2]` is false, yet LED column
line 2 (pin 7) is HIGH at the end of the output phase of the next scan: it was
driven HIGH during the previous scan, of row 0, and not written LOW since. -/
theorem C14_ghost_column :
    heldFive.currentRow = 1
    ∧ heldFive.LED_buffer (ledIdx 1 2) = false
    ∧ pinAt ledColPins 2 = 7
    ∧ heldFive.pinLevel (pinAt ledColPins 2) = Level.HIGH
    ∧ (scan_output heldFive).pinLevel (pinAt ledColPins 2) = Level.HIGH := by
  decide

/-- C15, the code at a failing input: switch `(0, 2)` of the fresh state reads
pressed on three consecutive passes over row 0 while every other switch reads
released, and its counter is then 1, not `MAX_DEBOUNCE`; from `bothHeld`, where
its counter is `MAX_DEBOUNCE`, it reads released on three consecutive passes over
row 0 while switch `(1, 0)` stays pressed, and its counter is then 2, not 0. -/
theorem C15_shared_cell_response :
    freshState.debounce_count (dbIdx 0 2) = 0
    ∧ samplesOf 0 2 freshState.currentRow [onlyLow 13, allHigh, onlyLow 13, allHigh, onlyLow 13]
        = List.replicate 3 true
    ∧ (runScans [onlyLow 13, allHigh, onlyLow 13, allHigh, onlyLow 13]
        freshState).debounce_count (dbIdx 0 2) = 1
    ∧ bothHeld.debounce_count (dbIdx 0 2) = MAX_DEBOUNCE
    ∧ samplesOf 0 2 bothHeld.currentRow [allHigh, onlyLow 11, allHigh, onlyLow 11, allHigh]
        = List.replicate 3 false
    ∧ (runScans [allHigh, onlyLow 11, allHigh, onlyLow 11, allHigh]
        bothHeld).debounce_count (dbIdx 0 2) = 2 := by
  decide

/-- C17: for every switch position `(r, c)`, a counter at `MAX_DEBOUNCE` has
`LED_buffer[r][c]` true and a counter at 0 has `LED_buffer[r][c]` false: this
holds after `setup`, every `scan` call keeps it (counters being in range), and
so it holds after any number of `scan` calls with any pin readings. -/
theorem C17_led_mirrors_counters :
    (∀ hw : State, ledMirrorsCounters (setup (boot hw)))
    ∧ (∀ (rd : Nat → Level) (s : State), countersInRange s → ledMirrorsCounters s →
        ledMirrorsCounters (scan rd s))
    ∧ (∀ (hw : State) (rds : List (Nat → Level)),
        ledMirrorsCounters (runScans rds (setup (boot hw)))) := by
  refine ⟨setup_boot_ledMirrorsCounters, scan_ledMirrorsCounters, ?_⟩
  intro hw rds
  exact runScans_ledMirrorsCounters rds _ (setup_boot_countersInRange hw)
    (setup_boot_ledMirrorsCounters hw)

/-- Witness of C17: the invariant holds in the state reached by five scans with
every column LOW and survives a sixth. -/
theorem C17_led_mirrors_counters_witness :
    countersInRange heldFive ∧ ledMirrorsCounters heldFive
    ∧ ledMirrorsCounters (scan allLow heldFive) :=
  ⟨by decide, by decide, C17_led_mirrors_counters.2.1 allLow heldFive (by decide) (by decide)⟩

/-- C19: for every row below `NUM_BTN_ROWS` and column below `NUM_BTN_COLS` the
key index `row * NUM_BTN_COLS + column` is below `NUM_BTN_ROWS * NUM_BTN_COLS`,
two positions with the same key index are the same position, and every line
printed by a `scan` call on that row carries such an index of that row. -/
theorem C19_key_index (r c : Nat) (hr : r < NUM_BTN_ROWS) (hc : c < NUM_BTN_COLS) :
    r * NUM_BTN_COLS + c < NUM_BTN_ROWS * NUM_BTN_COLS
    ∧ (∀ r' c' : Nat, r' < NUM_BTN_ROWS → c' < NUM_BTN_COLS →
        r * NUM_BTN_COLS + c = r' * NUM_BTN_COLS + c' → r = r' ∧ c = c')
    ∧ (∀ (rd : Nat → Level) (s : State), s.currentRow = r →
        ∀ e ∈ emitted rd s,
          e.key < NUM_BTN_ROWS * NUM_BTN_COLS ∧ e.key / NUM_BTN_COLS = r) := by
  unfold NUM_BTN_ROWS NUM_BTN_COLS at *
  refine ⟨by omega, ?_, ?_⟩
  · intro r' c' hr' hc' h
    omega
  · intro rd s hs e he
    obtain ⟨j, hj, hkey⟩ := emitted_key rd s e he
    unfold NUM_BTN_COLS at hj hkey
    rw [hs] at hkey
    omega

/-- Witness of C19: position `(1, 3)` has key index 7, below 8. -/
theorem C19_key_index_witness : 1 * NUM_BTN_COLS + 3 < NUM_BTN_ROWS * NUM_BTN_COLS :=
  (C19_key_index 1 3 (by decide) (by decide)).1

end MacroKeyboard
